import Mathlib

/-
Formal model (shallow embedding) of the calendar-mcp-server repository.

The repository contains two variants of the MCP server:
  * the memory-enhanced server (the unnamed source file, here `namespace Mem`):
    confirmation workflow plus a contextual memory engine;
  * the confirmation-only server (`index.js`, here `namespace Base`).

Modelling conventions:
  * JavaScript `Map` objects become association lists with `afind` / `aset` /
    `aerase`; `Map.set` replaces an existing binding.
  * Timestamps (`Date.now()`, ISO strings) are natural numbers; one `now`
    value is threaded per request.
  * MongoDB ObjectIds are natural numbers drawn from a `nextId` counter in
    the store; schema validation and Mongoose strict-mode stripping are not
    modelled (no verified property depends on them).
  * Fallible code returns `Except`; a JavaScript `TypeError` escaping the
    tool handler is modelled by `RErr.typeErr` and is wrapped into an
    `InternalError` by the request handler, exactly as the `catch` block of
    `setupToolHandlers` does.  Engine-specific exception message texts are
    abbreviated.
  * Disk persistence (`saveToDisk` / `loadFromDisk`) is fire-and-forget I/O
    and is not part of the pure state; no claim observes it.
-/

/-! ## Association-list maps (JavaScript `Map`) -/

def afind {κ α : Type} [DecidableEq κ] (k : κ) : List (κ × α) → Option α
  | [] => none
  | (k₁, v) :: rest => if k₁ = k then some v else afind k rest

def aerase {κ α : Type} [DecidableEq κ] (k : κ) : List (κ × α) → List (κ × α)
  | [] => []
  | (k₁, v) :: rest => if k₁ = k then aerase k rest else (k₁, v) :: aerase k rest

def aset {κ α : Type} [DecidableEq κ] (k : κ) (v : α) (m : List (κ × α)) :
    List (κ × α) :=
  (k, v) :: aerase k m

theorem afind_aerase_self {κ α : Type} [DecidableEq κ] (k : κ)
    (m : List (κ × α)) : afind k (aerase k m) = none := by
  induction m with
  | nil => rfl
  | cons hd tl ih =>
    obtain ⟨k₁, v⟩ := hd
    by_cases h : k₁ = k <;> simp [aerase, afind, h, ih]

theorem afind_aerase_ne {κ α : Type} [DecidableEq κ] {k k₁ : κ}
    (m : List (κ × α)) (h : k₁ ≠ k) : afind k₁ (aerase k m) = afind k₁ m := by
  induction m with
  | nil => rfl
  | cons hd tl ih =>
    obtain ⟨k₂, v⟩ := hd
    by_cases h₂ : k₂ = k
    · subst h₂
      simp [aerase, afind, Ne.symm h, ih]
    · by_cases h₃ : k₂ = k₁ <;> simp [aerase, afind, h, h₂, h₃, ih]

theorem afind_aset_self {κ α : Type} [DecidableEq κ] (k : κ) (v : α)
    (m : List (κ × α)) : afind k (aset k v m) = some v := by
  simp [aset, afind]

theorem afind_aset_ne {κ α : Type} [DecidableEq κ] {k k₁ : κ} (v : α)
    (m : List (κ × α)) (h : k₁ ≠ k) :
    afind k₁ (aset k v m) = afind k₁ m := by
  simp [aset, afind, Ne.symm h, afind_aerase_ne m h]

theorem afind_eq_none_of_not_mem {κ α : Type} [DecidableEq κ] {k : κ}
    {m : List (κ × α)} (h : k ∉ m.map Prod.fst) : afind k m = none := by
  induction m with
  | nil => rfl
  | cons hd tl ih =>
    obtain ⟨k₁, v⟩ := hd
    simp only [List.map_cons, List.mem_cons] at h
    push_neg at h
    simp [afind, Ne.symm h.1, ih h.2]

theorem afind_filter_none {κ α : Type} [DecidableEq κ] (k : κ)
    (p : κ × α → Bool) {m : List (κ × α)} (h : afind k m = none) :
    afind k (m.filter p) = none := by
  induction m with
  | nil => rfl
  | cons hd tl ih =>
    obtain ⟨k₁, v⟩ := hd
    by_cases hk : k₁ = k
    · subst hk; simp [afind] at h
    · simp only [afind, if_neg hk] at h
      by_cases hp : p (k₁, v) <;> simp [List.filter, hp, afind, hk, ih h]

theorem afind_filter_of_nodup {κ α : Type} [DecidableEq κ] (k : κ)
    (p : κ × α → Bool) {m : List (κ × α)} (h : (m.map Prod.fst).Nodup) :
    afind k (m.filter p) =
      match afind k m with
      | some v => if p (k, v) then some v else none
      | none => none := by
  induction m with
  | nil => rfl
  | cons hd tl ih =>
    obtain ⟨k₁, v⟩ := hd
    simp only [List.map_cons, List.nodup_cons] at h
    by_cases hk : k₁ = k
    · subst hk
      have htl : afind k₁ tl = none := afind_eq_none_of_not_mem h.1
      by_cases hp : p (k₁, v) <;>
        simp [List.filter, hp, afind, afind_filter_none _ _ htl]
    · by_cases hp : p (k₁, v) <;> simp [List.filter, hp, afind, hk, ih h.2]

/-! ## JavaScript-style string operations -/

/-- Prefix test on character lists (needle first). -/
def beginsWith : List Char → List Char → Bool
  | [], _ => true
  | _ :: _, [] => false
  | a :: as, b :: bs => a == b && beginsWith as bs

/-- Substring containment on character lists (needle first). -/
def containsSeq (needle : List Char) : List Char → Bool
  | [] => needle.isEmpty
  | c :: rest => beginsWith needle (c :: rest) || containsSeq needle rest

/-- JavaScript `hay.includes(needle)`. -/
def strIncludes (hay needle : String) : Bool :=
  containsSeq needle.toList hay.toList

/-- JavaScript `s.toLowerCase()` (ASCII case folding; the word lists this
feeds are ASCII). -/
def jsToLower (s : String) : String := String.mk (s.toList.map Char.toLower)

/-- JavaScript `s.trim()`: strip leading and trailing whitespace. -/
def jsTrim (s : String) : String :=
  String.mk
    (((s.toList.dropWhile Char.isWhitespace).reverse.dropWhile
        Char.isWhitespace).reverse)

/-- JavaScript `s.toLowerCase().trim()` as used to normalize free-text
confirmation responses. -/
def jsNormalize (s : String) : String := jsTrim (jsToLower s)

/-- JavaScript truthiness of an optional string (absent and `""` are falsy). -/
def jsTruthyStr : Option String → Bool
  | none => false
  | some s => !(s == "")

/-- JavaScript truthiness of an optional boolean. -/
def jsTruthyBool : Option Bool → Bool
  | none => false
  | some b => b

/-- Template-literal rendering of a possibly-undefined string. -/
def showOptStr (o : Option String) : String := o.getD "undefined"

/-- Template-literal rendering of a possibly-undefined number/date field. -/
def showOptNat (o : Option Nat) : String := (o.map toString).getD "undefined"

/-- Template-literal rendering of a field that holds `null` when unset. -/
def showNullStr (o : Option String) : String := o.getD "null"

/-- JavaScript `s.substring(0, n)`. -/
def strTake (n : Nat) (s : String) : String := String.mk (s.toList.take n)

/-- JavaScript `array.join(sep)`. -/
def strJoin (sep : String) : List String → String
  | [] => ""
  | [x] => x
  | x :: rest => x ++ sep ++ strJoin sep rest

theorem string_append_assoc (a b c : String) :
    a ++ b ++ c = a ++ (b ++ c) := by
  rcases a with ⟨la⟩
  rcases b with ⟨lb⟩
  rcases c with ⟨lc⟩
  show String.mk (la ++ lb ++ lc) = String.mk (la ++ (lb ++ lc))
  rw [List.append_assoc]

/-! ## Protocol-level results and errors -/

/-- The typed MCP error surface (`McpError` with an `ErrorCode`). -/
inductive McpError where
  | invalidRequest (msg : String)
  | methodNotFound (msg : String)
  | internalError (msg : String)
deriving DecidableEq

/-- Errors as they propagate inside a request: a thrown `McpError`, or a raw
JavaScript `TypeError` (e.g. reading a property of `undefined`). -/
inductive RErr where
  | mcp (e : McpError)
  | typeErr (msg : String)
deriving DecidableEq

/-- One entry of a tool result's `content` array. -/
structure TextContent where
  type : String := "text"
  text : String
deriving DecidableEq

/-- A tool-call result (`\x7b content: [...] \x7d`). -/
structure MResult where
  content : List TextContent
deriving DecidableEq

/-- Build the single-text result every operation returns. -/
def textResult (t : String) : MResult := ⟨[{ text := t }]⟩

/-! ## Tool arguments -/

/-- The CRUD argument fields of a tool request; absent fields are `none`
(JavaScript `undefined`).  Entity ids and dates are modelled as naturals. -/
structure CrudArgs where
  calendarId : Option String := none
  ownerId : Option String := none
  title : Option String := none
  startDate : Option Nat := none
  endDate : Option Nat := none
  description : Option String := none
  location : Option String := none
  status : Option String := none
  tags : Option (List String) := none
  name : Option String := none
  userId : Option String := none
  content : Option String := none
  eventId : Option Nat := none
  listId : Option Nat := none
  itemId : Option Nat := none
  deleteItems : Option Bool := none
deriving DecidableEq

/-- Key of the pending-operation `Map`: either a generated operation id
`op_<counter>_<timestamp>` (represented by its counter and timestamp, whose
string rendering is injective), or the literal key `"last_operation"`. -/
inductive OpKey where
  | opId (counter : Nat) (time : Nat)
  | lastOp
deriving DecidableEq

/-- The string form `op_<counter>_<timestamp>` of a generated operation id. -/
def opIdString (counter time : Nat) : String :=
  "op_" ++ toString counter ++ "_" ++ toString time

/-- The full argument object of a tool call (CRUD fields plus the
`confirm_operation` and `get_context` fields). -/
structure ToolArgs where
  crud : CrudArgs := {}
  operationId : Option OpKey := none
  confirm : Option Bool := none
  response : Option String := none
  operation : Option String := none
  params : Option CrudArgs := none
deriving DecidableEq

/-- An incoming tool request (`request.params`). -/
structure Request where
  name : String
  args : ToolArgs
deriving DecidableEq

/-- A value stored in the pending-operation map.  Real entries store
`\x7bname, args, timestamp\x7d`; the `last_operation` alias additionally
stores the real entry's id (`id?`). -/
structure PendingEntry where
  id? : Option (Nat × Nat) := none
  name : String
  args : ToolArgs
  timestamp : Nat
deriving DecidableEq

/-! ## The external data store (MongoDB collections) -/

/-- An Event document.  Schema fields not consulted by any modelled
operation (`isAllDay`, `recurrenceRule`, `recurrenceExceptions`,
`attendees`, `createdAt`, `updatedAt`) are omitted.  `list` is the field
declared in the Mongoose schema (written by the confirmation-only server);
`listId` is the raw field name written by the memory-enhanced server. -/
structure EventRec where
  eid : Nat
  calendarId : String := ""
  ownerId : String := ""
  title : String := ""
  startDate : Nat := 0
  endDate : Nat := 0
  description : String := ""
  location : String := ""
  status : String := "confirmed"
  tags : List String := []
  list : Option Nat := none
  listId : Option Nat := none
deriving DecidableEq

/-- A List document. -/
structure ListRec where
  lid : Nat
  name : String := ""
  description : String := ""
  userId : String := ""
deriving DecidableEq

/-- An Item document. -/
structure ItemRec where
  iid : Nat
  content : String := ""
  listId : Option Nat := none
deriving DecidableEq

/-- The data store: three collections plus the ObjectId source. -/
structure Store where
  events : List EventRec := []
  lists : List ListRec := []
  items : List ItemRec := []
  nextId : Nat := 0
deriving DecidableEq

def findEvt (i : Nat) (st : Store) : Option EventRec :=
  st.events.find? (fun e => e.eid == i)

def findLst (i : Nat) (st : Store) : Option ListRec :=
  st.lists.find? (fun l => l.lid == i)

def findItm (i : Nat) (st : Store) : Option ItemRec :=
  st.items.find? (fun x => x.iid == i)

/-- `findByIdAndUpdate` on events: returns the updated document, or `none`
when absent (in which case the store is unchanged). -/
def updEvt (i : Nat) (f : EventRec → EventRec) (st : Store) :
    Store × Option EventRec :=
  match findEvt i st with
  | none => (st, none)
  | some e =>
    ({ st with events := st.events.map (fun e₁ => if e₁.eid == i then f e₁ else e₁) },
     some (f e))

def updLst (i : Nat) (f : ListRec → ListRec) (st : Store) :
    Store × Option ListRec :=
  match findLst i st with
  | none => (st, none)
  | some l =>
    ({ st with lists := st.lists.map (fun l₁ => if l₁.lid == i then f l₁ else l₁) },
     some (f l))

def updItm (i : Nat) (f : ItemRec → ItemRec) (st : Store) :
    Store × Option ItemRec :=
  match findItm i st with
  | none => (st, none)
  | some x =>
    ({ st with items := st.items.map (fun x₁ => if x₁.iid == i then f x₁ else x₁) },
     some (f x))

/-- `findByIdAndDelete` on events. -/
def delEvt (i : Nat) (st : Store) : Store × Option EventRec :=
  match findEvt i st with
  | none => (st, none)
  | some e => ({ st with events := st.events.filter (fun e₁ => !(e₁.eid == i)) }, some e)

def delLst (i : Nat) (st : Store) : Store × Option ListRec :=
  match findLst i st with
  | none => (st, none)
  | some l => ({ st with lists := st.lists.filter (fun l₁ => !(l₁.lid == i)) }, some l)

def delItm (i : Nat) (st : Store) : Store × Option ItemRec :=
  match findItm i st with
  | none => (st, none)
  | some x => ({ st with items := st.items.filter (fun x₁ => !(x₁.iid == i)) }, some x)

/-- `Item.deleteMany(pred)`: returns the new store and the deleted count. -/
def delManyItm (p : ItemRec → Bool) (st : Store) : Store × Nat :=
  ({ st with items := st.items.filter (fun x => !(p x)) },
   (st.items.filter p).length)

/-- Insertion sort used to model MongoDB `sort` (only the rendered order of
read results depends on it). -/
def insertBy {α : Type} (le : α → α → Bool) (x : α) : List α → List α
  | [] => [x]
  | y :: ys => if le x y then x :: y :: ys else y :: insertBy le x ys

def sortBy {α : Type} (le : α → α → Bool) (l : List α) : List α :=
  l.foldr (insertBy le) []

/-! ## Shared confirmation machinery

Both server variants contain textually identical `requestConfirmation` and
`generateConfirmationMessage` methods; they are defined once here. -/

/-- Abstracted JSON rendering of a tool argument object (v8
`JSON.stringify(args, null, 2)` indentation is not reproduced
byte-for-byte; no verified property inspects this rendering). -/
def jsonQuote (s : String) : String := "\"" ++ s ++ "\""

def jsonField (k v : String) : String := jsonQuote k ++ ": " ++ v

def jsonOfCrud (a : CrudArgs) : String :=
  let fs : List String :=
    (a.calendarId.map (fun v => jsonField "calendarId" (jsonQuote v))).toList ++
    (a.ownerId.map (fun v => jsonField "ownerId" (jsonQuote v))).toList ++
    (a.title.map (fun v => jsonField "title" (jsonQuote v))).toList ++
    (a.startDate.map (fun v => jsonField "startDate" (toString v))).toList ++
    (a.endDate.map (fun v => jsonField "endDate" (toString v))).toList ++
    (a.description.map (fun v => jsonField "description" (jsonQuote v))).toList ++
    (a.location.map (fun v => jsonField "location" (jsonQuote v))).toList ++
    (a.status.map (fun v => jsonField "status" (jsonQuote v))).toList ++
    (a.tags.map (fun v => jsonField "tags" ("[" ++ strJoin ", " (v.map jsonQuote) ++ "]"))).toList ++
    (a.name.map (fun v => jsonField "name" (jsonQuote v))).toList ++
    (a.userId.map (fun v => jsonField "userId" (jsonQuote v))).toList ++
    (a.content.map (fun v => jsonField "content" (jsonQuote v))).toList ++
    (a.eventId.map (fun v => jsonField "eventId" (toString v))).toList ++
    (a.listId.map (fun v => jsonField "listId" (toString v))).toList ++
    (a.itemId.map (fun v => jsonField "itemId" (toString v))).toList ++
    (a.deleteItems.map (fun v => jsonField "deleteItems" (toString v))).toList
  "\x7b " ++ strJoin ", " fs ++ " \x7d"

def jsonOfToolArgs (a : ToolArgs) : String := jsonOfCrud a.crud

/-- Truthiness of an optional id/date argument.  In JavaScript these are
non-empty strings whenever present. -/
def jsTruthyNat (o : Option Nat) : Bool := o.isSome

/-- The `generateConfirmationMessage` switch (identical in both variants). -/
def generateConfirmationMessage (operationName : String) (args : ToolArgs) :
    String :=
  let a := args.crud
  if operationName == "create_event" then
    "Create new event: \"" ++ showOptStr a.title ++ "\" from " ++
      showOptNat a.startDate ++ " to " ++ showOptNat a.endDate ++
      (if jsTruthyStr a.location then " at " ++ showOptStr a.location else "")
  else if operationName == "update_event" then
    "Update event with ID: " ++ showOptNat a.eventId ++
      (if jsTruthyStr a.title then "\nNew title: \"" ++ showOptStr a.title ++ "\"" else "") ++
      (if jsTruthyNat a.startDate then "\nNew start: " ++ showOptNat a.startDate else "") ++
      (if jsTruthyNat a.endDate then "\nNew end: " ++ showOptNat a.endDate else "")
  else if operationName == "delete_event" then
    "DELETE event with ID: " ++ showOptNat a.eventId ++
      "\n⚠️  This action cannot be undone!"
  else if operationName == "create_list" then
    "Create new list: \"" ++ showOptStr a.name ++ "\"" ++
      (if jsTruthyStr a.description then " - " ++ showOptStr a.description else "")
  else if operationName == "update_list" then
    "Update list with ID: " ++ showOptNat a.listId ++
      (if jsTruthyStr a.name then "\nNew name: \"" ++ showOptStr a.name ++ "\"" else "") ++
      (if jsTruthyStr a.description then "\nNew description: \"" ++ showOptStr a.description ++ "\"" else "")
  else if operationName == "delete_list" then
    "DELETE list with ID: " ++ showOptNat a.listId ++
      (if jsTruthyBool a.deleteItems then "\n⚠️  This will also DELETE all items in the list!" else "") ++
      "\n⚠️  This action cannot be undone!"
  else if operationName == "create_item" then
    "Create new item: \"" ++ showOptStr a.content ++ "\" in list " ++ showOptNat a.listId
  else if operationName == "update_item" then
    "Update item with ID: " ++ showOptNat a.itemId ++
      (if jsTruthyStr a.content then "\nNew content: \"" ++ showOptStr a.content ++ "\"" else "")
  else if operationName == "delete_item" then
    "DELETE item with ID: " ++ showOptNat a.itemId ++
      "\n⚠️  This action cannot be undone!"
  else if operationName == "assign_list_to_event" then
    "Assign list " ++ showOptNat a.listId ++ " to event " ++ showOptNat a.eventId
  else if operationName == "unassign_list_from_event" then
    "Remove list assignment from event " ++ showOptNat a.eventId
  else
    "Execute operation: " ++ operationName ++ " with parameters: " ++ jsonOfToolArgs args

/-- The confirmation prompt returned by `requestConfirmation`. -/
def confirmPrompt (msg oid : String) : String :=
  "⚠️  CONFIRMATION REQUIRED\n\n" ++ msg ++ "\n\nOperation ID: " ++ oid ++
    ("\n\nTo proceed, you can either:\n1. Use the confirm_operation tool with operationId: \"" ++
      oid ++ "\" and confirm: true/false\n2. Simply reply with \"yes\", \"confirm\", \"proceed\" to confirm OR \"no\", \"cancel\", \"abort\" to cancel")

/-- The pending map after `requestConfirmation`: the real entry stored
under its fresh id, then the `last_operation` alias overwritten. -/
def pendingAfterRequest (now : Nat) (name : String) (args : ToolArgs)
    (counter : Nat) (pending : List (OpKey × PendingEntry)) :
    List (OpKey × PendingEntry) :=
  aset .lastOp { id? := some (counter + 1, now), name := name, args := args, timestamp := now }
    (aset (.opId (counter + 1) now) { name := name, args := args, timestamp := now } pending)

/-- Free-text classification: lowercase/trim, then substring containment
against the affirmative list, then against the negative list. -/
def classifyWith (confirmW cancelW : List String) (resp : String) :
    Option Bool :=
  let n := jsNormalize resp
  if confirmW.any (fun w => strIncludes n w) then some true
  else if cancelW.any (fun w => strIncludes n w) then some false
  else none

/-! ## The memory-enhanced server variant (unnamed source file) -/

namespace Mem

def confirmWords : List String :=
  ["yes", "confirm", "proceed", "ok", "y", "go", "continue"]

def cancelWords : List String :=
  ["no", "cancel", "abort", "stop", "n", "decline"]

def classifyResponse (r : String) : Option Bool :=
  classifyWith confirmWords cancelWords r

/-! ### Contextual memory engine -/

/-- Result value handed to `addInteraction`: a tool result, or the
`\x7b error: message \x7d` object recorded by the catch block. -/
inductive RecResult where
  | ok (r : MResult)
  | errObj (msg : String)
deriving DecidableEq

/-- Output of `sanitizeResult`: results carrying a `content` payload are
reduced to `\x7b type: content, hasContent: true \x7d`; anything else is
stored verbatim. -/
inductive SanitizedResult where
  | contentTag
  | errObj (msg : String)
deriving DecidableEq

def sanitizeParams (a : ToolArgs) : ToolArgs := a

def sanitizeResult : RecResult → SanitizedResult
  | .ok _ => .contentTag
  | .errObj m => .errObj m

/-- One recorded interaction.  The optional extra-context parameter of
`addInteraction` is always the empty object at every call site and is
omitted. -/
structure Interaction where
  timestamp : Nat
  operation : String
  params : ToolArgs
  result : SanitizedResult
deriving DecidableEq

structure RecentEvent where
  id : Option String
  title : Option String
  startDate : Option Nat
  endDate : Option Nat
  operation : String
  timestamp : Nat
deriving DecidableEq

structure RecentList where
  id : Option String
  name : Option String
  operation : String
  timestamp : Nat
deriving DecidableEq

structure RecentItem where
  id : Option String
  content : Option String
  listId : Option Nat
  operation : String
  timestamp : Nat
deriving DecidableEq

structure UserPrefs where
  preferredCalendar : Option String := none
  userId : Option String := none
deriving DecidableEq

/-- The `currentFocus` pointer. -/
inductive Focus where
  | event (id : Option String) (title : Option String)
  | list (id : Option String) (name : Option String)
  | eventListRel (eventId : Option Nat) (listId : Option Nat)
deriving DecidableEq

structure SessionContext where
  recentEvents : List RecentEvent := []
  recentLists : List RecentList := []
  recentItems : List RecentItem := []
  userPreferences : UserPrefs := {}
  currentFocus : Option Focus := none
deriving DecidableEq

structure Session where
  interactions : List Interaction := []
  context : SessionContext := {}
  created : Nat
  lastAccessed : Nat
deriving DecidableEq

structure MemoryState where
  maxEntries : Nat := 100
  sessions : List (String × Session) := []
deriving DecidableEq

def isHexDigitI (c : Char) : Bool :=
  c.isDigit || (('a' ≤ c) && (c ≤ 'f')) || (('A' ≤ c) && (c ≤ 'F'))

/-- Attempt to match `/ID:\s*([a-f0-9]\x7b24\x7d)/i` at the head of the
character list. -/
def idTokenAt (l : List Char) : Option String :=
  match l with
  | i :: d :: colon :: rest =>
    if (i.toLower == 'i') && (d.toLower == 'd') && (colon == ':') then
      let body := rest.dropWhile (fun c => c.isWhitespace)
      let tok := body.take 24
      if (tok.length == 24) && tok.all isHexDigitI then some (String.mk tok)
      else none
    else none
  | _ => none

def scanForId : List Char → Option String
  | [] => none
  | c :: rest =>
    match idTokenAt (c :: rest) with
    | some s => some s
    | none => scanForId rest

/-- `extractId`: best-effort extraction of a 24-hex-digit token following
`ID:` from the first content text of a result. -/
def extractId (res : RecResult) : Option String :=
  match res with
  | .errObj _ => none
  | .ok r =>
    match r.content with
    | [] => none
    | c :: _ => scanForId c.text.toList

def freshSession (now : Nat) : Session :=
  { created := now, lastAccessed := now }

/-- `getSession`: create the session if missing, then refresh
`lastAccessed`. -/
def getSession (now : Nat) (sid : String) (mem : MemoryState) :
    Session × MemoryState :=
  match afind sid mem.sessions with
  | some s =>
    let s := { s with lastAccessed := now }
    (s, { mem with sessions := aset sid s mem.sessions })
  | none =>
    let s := freshSession now
    (s, { mem with sessions := aset sid s mem.sessions })

/-- The `updateContext` switch.  The `result.success !== false` guards are
always satisfied: no modelled result value carries a `success` field. -/
def updateContext (now : Nat) (operation : String) (params : ToolArgs)
    (result : RecResult) (sess : Session) : Session :=
  let c := sess.context
  let c :=
    if operation == "create_event" then
      { c with
        recentEvents :=
          { id := extractId result, title := params.crud.title,
            startDate := params.crud.startDate, endDate := params.crud.endDate,
            operation := "created", timestamp := now } :: c.recentEvents,
        currentFocus := some (.event (extractId result) params.crud.title) }
    else if operation == "create_list" then
      { c with
        recentLists :=
          { id := extractId result, name := params.crud.name,
            operation := "created", timestamp := now } :: c.recentLists,
        currentFocus := some (.list (extractId result) params.crud.name) }
    else if operation == "create_item" then
      { c with
        recentItems :=
          { id := extractId result, content := params.crud.content,
            listId := params.crud.listId, operation := "created",
            timestamp := now } :: c.recentItems }
    else if operation == "get_events" then
      let prefs := c.userPreferences
      let prefs :=
        if jsTruthyStr params.crud.calendarId then
          { prefs with preferredCalendar := params.crud.calendarId }
        else prefs
      let prefs :=
        if jsTruthyStr params.crud.ownerId then
          { prefs with userId := params.crud.ownerId }
        else prefs
      { c with userPreferences := prefs }
    else if operation == "assign_list_to_event" then
      { c with currentFocus := some (.eventListRel params.crud.eventId params.crud.listId) }
    else c
  let c :=
    { c with
      recentEvents := c.recentEvents.take 10,
      recentLists := c.recentLists.take 10,
      recentItems := c.recentItems.take 20 }
  { sess with context := c }

/-- `addInteraction`: unshift the new interaction, truncate to
`maxEntries`, update the derived context, write the session back.
(`saveToDisk` is fire-and-forget I/O and is not modelled.) -/
def addInteraction (now : Nat) (sid : String) (operation : String)
    (params : ToolArgs) (result : RecResult) (mem : MemoryState) :
    MemoryState :=
  let (sess, mem) := getSession now sid mem
  let inter : Interaction :=
    { timestamp := now, operation := operation,
      params := sanitizeParams params, result := sanitizeResult result }
  let l := inter :: sess.interactions
  let l := if l.length > mem.maxEntries then l.take mem.maxEntries else l
  let sess := updateContext now operation params result { sess with interactions := l }
  { mem with sessions := aset sid sess mem.sessions }

/-- `getContextualSuggestions`: heuristic suggestion strings derived from
the session context. -/
def getContextualSuggestions (now : Nat) (sid : String)
    (currentOperation : String) (currentParams : CrudArgs)
    (mem : MemoryState) : List String × MemoryState :=
  let (sess, mem) := getSession now sid mem
  let c := sess.context
  let s1 : List String :=
    if currentOperation == "create_item" && !(jsTruthyNat currentParams.listId) then
      match c.recentLists with
      | [] => []
      | rl :: _ =>
        ["You recently created a list \"" ++ showOptStr rl.name ++ "\" (" ++
          showNullStr rl.id ++ "). Would you like to add this item there?"]
    else []
  let s2 : List String :=
    if currentOperation == "assign_list_to_event" && !(jsTruthyNat currentParams.eventId) then
      match c.recentEvents with
      | [] => []
      | re :: _ =>
        ["You recently created event \"" ++ showOptStr re.title ++ "\" (" ++
          showNullStr re.id ++ "). Is this the event you want to assign the list to?"]
    else []
  let s3 : List String :=
    if currentOperation == "create_event" && jsTruthyStr c.userPreferences.preferredCalendar then
      ["Based on your activity, you might want to use calendar: " ++
        showOptStr c.userPreferences.preferredCalendar]
    else []
  (s1 ++ s2 ++ s3, mem)

def summarizeInteraction (i : Interaction) : String :=
  if i.operation == "create_event" then
    "Created event \"" ++ showOptStr i.params.crud.title ++ "\""
  else if i.operation == "create_list" then
    "Created list \"" ++ showOptStr i.params.crud.name ++ "\""
  else if i.operation == "create_item" then
    "Added item \"" ++
      (match i.params.crud.content with
        | some s => strTake 30 s
        | none => "undefined") ++ "...\""
  else "Performed " ++ i.operation

/-- Compact recency suggestions (id/title, id/name, id/truncated content).
A `recentItems` entry whose `content` is `undefined` would make the source
throw on `substring`; it is rendered as `undefined` here (no verified
property inspects it). -/
structure EntitySuggestions where
  events : List (Option String × Option String × Option Nat)
  lists : List (Option String × Option String)
  items : List (Option String × String)
deriving DecidableEq

def getRecentEntitySuggestions (c : SessionContext) : EntitySuggestions :=
  { events := c.recentEvents.map (fun e => (e.id, e.title, e.startDate)),
    lists := c.recentLists.map (fun l => (l.id, l.name)),
    items := c.recentItems.map (fun i =>
      (i.id,
       (match i.content with
         | some s => strTake 50 s
         | none => "undefined") ++ "...")) }

structure ActivityLine where
  operation : String
  timestamp : Nat
  summary : String
deriving DecidableEq

structure ContextSummary where
  currentFocus : Option Focus
  recentActivity : List ActivityLine
  userPreferences : UserPrefs
  suggestions : EntitySuggestions
deriving DecidableEq

/-- `getConversationContext` with the default limit of 5 (the only call
site uses the default). -/
def getConversationContext (now : Nat) (sid : String) (mem : MemoryState) :
    ContextSummary × MemoryState :=
  let (sess, mem) := getSession now sid mem
  let recent := sess.interactions.take 5
  ({ currentFocus := sess.context.currentFocus,
     recentActivity :=
       recent.map (fun i => ⟨i.operation, i.timestamp, summarizeInteraction i⟩),
     userPreferences := sess.context.userPreferences,
     suggestions := getRecentEntitySuggestions sess.context }, mem)

end Mem

/-! ### Data-store operations of the memory-enhanced server -/

namespace Mem

def opKeyString : OpKey → String
  | .opId c t => opIdString c t
  | .lastOp => "last_operation"

/-- Document built by `new Event(args)` (schema defaults applied; see the
file header for the Mongoose caveats). -/
def eventFromArgs (a : CrudArgs) (i : Nat) : EventRec :=
  { eid := i, calendarId := a.calendarId.getD "", ownerId := a.ownerId.getD "",
    title := a.title.getD "", startDate := a.startDate.getD 0,
    endDate := a.endDate.getD 0, description := a.description.getD "",
    location := a.location.getD "", status := a.status.getD "confirmed",
    tags := a.tags.getD [], list := none, listId := a.listId }

def applyEventUpdate (a : CrudArgs) (e : EventRec) : EventRec :=
  { e with
    calendarId := a.calendarId.getD e.calendarId,
    ownerId := a.ownerId.getD e.ownerId,
    title := a.title.getD e.title,
    startDate := a.startDate.getD e.startDate,
    endDate := a.endDate.getD e.endDate,
    description := a.description.getD e.description,
    location := a.location.getD e.location,
    status := a.status.getD e.status,
    tags := a.tags.getD e.tags,
    listId := match a.listId with | some v => some v | none => e.listId }

def createEvent (a : ToolArgs) (st : Store) : Store × Except RErr MResult :=
  let e := eventFromArgs a.crud st.nextId
  let st := { st with events := st.events ++ [e], nextId := st.nextId + 1 }
  (st, .ok (textResult
    ("✅ Event created successfully!\n\nID: " ++ toString e.eid ++
      "\nTitle: " ++ e.title ++ "\nStart: " ++ toString e.startDate ++
      "\nEnd: " ++ toString e.endDate ++
      (if e.location != "" then "\nLocation: " ++ e.location else "") ++
      (if e.description != "" then "\nDescription: " ++ e.description else ""))))

def matchesEventsFilter (a : CrudArgs) (e : EventRec) : Bool :=
  (match a.calendarId with | some v => e.calendarId == v | none => true) &&
  (match a.ownerId with | some v => e.ownerId == v | none => true) &&
  (match a.status with | some v => e.status == v | none => true) &&
  (match a.tags with
    | some ts => if ts.length > 0 then ts.any (fun t => e.tags.contains t) else true
    | none => true) &&
  (match a.listId with | some v => e.listId == some v | none => true) &&
  (if a.startDate.isSome || a.endDate.isSome then
    (match a.startDate with | some s => decide (s ≤ e.startDate) | none => false) ||
      (match a.endDate with | some en => decide (e.endDate ≤ en) | none => false)
   else true)

def renderEventLine (e : EventRec) : String :=
  "📅 **" ++ e.title ++ "**\n" ++
    "   ID: " ++ toString e.eid ++ "\n" ++
    "   Start: " ++ toString e.startDate ++ "\n" ++
    "   End: " ++ toString e.endDate ++ "\n" ++
    "   Status: " ++ e.status ++ "\n" ++
    "   Calendar: " ++ e.calendarId ++ "\n" ++
    "   Owner: " ++ e.ownerId ++
    (if e.location != "" then "\n   Location: " ++ e.location else "") ++
    (if e.description != "" then "\n   Description: " ++ e.description else "") ++
    (if e.tags.length > 0 then "\n   Tags: " ++ strJoin ", " e.tags else "") ++
    (match e.listId with | some l => "\n   List: " ++ toString l | none => "")

def getEvents (a : ToolArgs) (st : Store) : Store × Except RErr MResult :=
  let events := sortBy (fun x y => decide (x.startDate ≤ y.startDate))
    (st.events.filter (matchesEventsFilter a.crud))
  if events.length == 0 then
    (st, .ok (textResult "No events found matching the criteria."))
  else
    (st, .ok (textResult
      ("Found " ++ toString events.length ++ " event(s):\n\n" ++
        strJoin "\n\n" (events.map renderEventLine))))

def updateEvent (a : ToolArgs) (st : Store) : Store × Except RErr MResult :=
  match a.crud.eventId with
  | none => (st, .error (.mcp (.invalidRequest "Event with ID undefined not found")))
  | some i =>
    match updEvt i (applyEventUpdate a.crud) st with
    | (st, none) =>
      (st, .error (.mcp (.invalidRequest ("Event with ID " ++ toString i ++ " not found"))))
    | (st, some e) =>
      (st, .ok (textResult
        ("✅ Event updated successfully!\n\nID: " ++ toString e.eid ++
          "\nTitle: " ++ e.title ++ "\nStart: " ++ toString e.startDate ++
          "\nEnd: " ++ toString e.endDate ++
          (if e.location != "" then "\nLocation: " ++ e.location else "") ++
          (if e.description != "" then "\nDescription: " ++ e.description else ""))))

def deleteEvent (a : ToolArgs) (st : Store) : Store × Except RErr MResult :=
  match a.crud.eventId with
  | none => (st, .error (.mcp (.invalidRequest "Event with ID undefined not found")))
  | some i =>
    match delEvt i st with
    | (st, none) =>
      (st, .error (.mcp (.invalidRequest ("Event with ID " ++ toString i ++ " not found"))))
    | (st, some e) =>
      (st, .ok (textResult ("✅ Event \"" ++ e.title ++ "\" deleted successfully!")))

def createList (a : ToolArgs) (st : Store) : Store × Except RErr MResult :=
  let l : ListRec :=
    { lid := st.nextId, name := a.crud.name.getD "",
      description := a.crud.description.getD "", userId := a.crud.userId.getD "" }
  let st := { st with lists := st.lists ++ [l], nextId := st.nextId + 1 }
  (st, .ok (textResult
    ("✅ List created successfully!\n\nID: " ++ toString l.lid ++
      "\nName: " ++ l.name ++
      (if l.description != "" then "\nDescription: " ++ l.description else "") ++
      "\nUser: " ++ l.userId)))

def matchesListsFilter (a : CrudArgs) (l : ListRec) : Bool :=
  (match a.userId with | some v => l.userId == v | none => true) &&
  (match a.name with
    | some v => strIncludes (jsToLower l.name) (jsToLower v)
    | none => true)

def getLists (a : ToolArgs) (st : Store) : Store × Except RErr MResult :=
  let lists := sortBy (fun x y => decide (x.name ≤ y.name))
    (st.lists.filter (matchesListsFilter a.crud))
  if lists.length == 0 then
    (st, .ok (textResult "No lists found matching the criteria."))
  else
    (st, .ok (textResult
      ("Found " ++ toString lists.length ++ " list(s):\n\n" ++
        strJoin "\n\n" (lists.map (fun l =>
          "📝 **" ++ l.name ++ "**\n" ++
            "   ID: " ++ toString l.lid ++ "\n" ++
            "   User: " ++ l.userId ++
            (if l.description != "" then "\n   Description: " ++ l.description else ""))))))

def applyListUpdate (a : CrudArgs) (l : ListRec) : ListRec :=
  { l with
    name := a.name.getD l.name,
    description := a.description.getD l.description }

def updateList (a : ToolArgs) (st : Store) : Store × Except RErr MResult :=
  match a.crud.listId with
  | none => (st, .error (.mcp (.invalidRequest "List with ID undefined not found")))
  | some i =>
    match updLst i (applyListUpdate a.crud) st with
    | (st, none) =>
      (st, .error (.mcp (.invalidRequest ("List with ID " ++ toString i ++ " not found"))))
    | (st, some l) =>
      (st, .ok (textResult
        ("✅ List updated successfully!\n\nID: " ++ toString l.lid ++
          "\nName: " ++ l.name ++
          (if l.description != "" then "\nDescription: " ++ l.description else ""))))

def deleteList (a : ToolArgs) (st : Store) : Store × Except RErr MResult :=
  match a.crud.listId with
  | none => (st, .error (.mcp (.invalidRequest "List with ID undefined not found")))
  | some i =>
    match delLst i st with
    | (st, none) =>
      (st, .error (.mcp (.invalidRequest ("List with ID " ++ toString i ++ " not found"))))
    | (st, some l) =>
      if jsTruthyBool a.crud.deleteItems then
        match delManyItm (fun x => x.listId == some i) st with
        | (st, n) =>
          (st, .ok (textResult
            ("✅ List \"" ++ l.name ++ "\" and " ++ toString n ++
              " associated items deleted successfully!")))
      else
        (st, .ok (textResult ("✅ List \"" ++ l.name ++ "\" deleted successfully!")))

def createItem (a : ToolArgs) (st : Store) : Store × Except RErr MResult :=
  let x : ItemRec :=
    { iid := st.nextId, content := a.crud.content.getD "", listId := a.crud.listId }
  let st := { st with items := st.items ++ [x], nextId := st.nextId + 1 }
  (st, .ok (textResult
    ("✅ Item created successfully!\n\nID: " ++ toString x.iid ++
      "\nContent: " ++ x.content ++ "\nList: " ++ showOptNat x.listId)))

def matchesItemsFilter (a : CrudArgs) (x : ItemRec) : Bool :=
  (match a.listId with | some v => x.listId == some v | none => true) &&
  (match a.content with
    | some v => strIncludes (jsToLower x.content) (jsToLower v)
    | none => true)

/-- `get_items` sorts on `createdAt`, a field the Item schema does not
declare; the stored order is kept. -/
def getItems (a : ToolArgs) (st : Store) : Store × Except RErr MResult :=
  let items := st.items.filter (matchesItemsFilter a.crud)
  if items.length == 0 then
    (st, .ok (textResult "No items found matching the criteria."))
  else
    (st, .ok (textResult
      ("Found " ++ toString items.length ++ " item(s):\n\n" ++
        strJoin "\n\n" (items.map (fun x =>
          "• **" ++ x.content ++ "**\n" ++
            "  ID: " ++ toString x.iid ++ "\n" ++
            "  List: " ++ showOptNat x.listId)))))

def updateItem (a : ToolArgs) (st : Store) : Store × Except RErr MResult :=
  match a.crud.itemId with
  | none => (st, .error (.mcp (.invalidRequest "Item with ID undefined not found")))
  | some i =>
    match updItm i (fun x => { x with content := a.crud.content.getD x.content }) st with
    | (st, none) =>
      (st, .error (.mcp (.invalidRequest ("Item with ID " ++ toString i ++ " not found"))))
    | (st, some x) =>
      (st, .ok (textResult
        ("✅ Item updated successfully!\n\nID: " ++ toString x.iid ++
          "\nContent: " ++ x.content)))

def deleteItem (a : ToolArgs) (st : Store) : Store × Except RErr MResult :=
  match a.crud.itemId with
  | none => (st, .error (.mcp (.invalidRequest "Item with ID undefined not found")))
  | some i =>
    match delItm i st with
    | (st, none) =>
      (st, .error (.mcp (.invalidRequest ("Item with ID " ++ toString i ++ " not found"))))
    | (st, some x) =>
      (st, .ok (textResult ("✅ Item \"" ++ x.content ++ "\" deleted successfully!")))

/-- `assign_list_to_event` updates the event first and only then checks the
list, so a missing list leaves the event already updated. -/
def assignListToEvent (a : ToolArgs) (st : Store) : Store × Except RErr MResult :=
  match a.crud.eventId with
  | none => (st, .error (.mcp (.invalidRequest "Event with ID undefined not found")))
  | some i =>
    match updEvt i (fun e => { e with listId := a.crud.listId }) st with
    | (st, none) =>
      (st, .error (.mcp (.invalidRequest ("Event with ID " ++ toString i ++ " not found"))))
    | (st, some e) =>
      match a.crud.listId.bind (fun li => findLst li st) with
      | none =>
        (st, .error (.mcp (.invalidRequest ("List with ID " ++ showOptNat a.crud.listId ++ " not found"))))
      | some l =>
        (st, .ok (textResult
          ("✅ List \"" ++ l.name ++ "\" assigned to event \"" ++ e.title ++
            "\" successfully!")))

def unassignListFromEvent (a : ToolArgs) (st : Store) : Store × Except RErr MResult :=
  match a.crud.eventId with
  | none => (st, .error (.mcp (.invalidRequest "Event with ID undefined not found")))
  | some i =>
    match updEvt i (fun e => { e with listId := none }) st with
    | (st, none) =>
      (st, .error (.mcp (.invalidRequest ("Event with ID " ++ toString i ++ " not found"))))
    | (st, some e) =>
      (st, .ok (textResult
        ("✅ List assignment removed from event \"" ++ e.title ++ "\" successfully!")))

def getEventWithListAndItems (a : ToolArgs) (st : Store) :
    Store × Except RErr MResult :=
  match a.crud.eventId with
  | none => (st, .error (.mcp (.invalidRequest "Event with ID undefined not found")))
  | some i =>
    match findEvt i st with
    | none =>
      (st, .error (.mcp (.invalidRequest ("Event with ID " ++ toString i ++ " not found"))))
    | some e =>
      let base :=
        "📅 **Event: " ++ e.title ++ "**\n" ++
          "ID: " ++ toString e.eid ++ "\n" ++
          "Start: " ++ toString e.startDate ++ "\n" ++
          "End: " ++ toString e.endDate ++ "\n" ++
          "Status: " ++ e.status ++ "\n" ++
          "Calendar: " ++ e.calendarId ++ "\n" ++
          "Owner: " ++ e.ownerId ++
          (if e.location != "" then "\nLocation: " ++ e.location else "") ++
          (if e.description != "" then "\nDescription: " ++ e.description else "") ++
          (if e.tags.length > 0 then "\nTags: " ++ strJoin ", " e.tags else "")
      let text :=
        match e.listId with
        | some li =>
          match findLst li st with
          | some l =>
            let hd := base ++ "\n\n📝 **Assigned List: " ++ l.name ++ "**\n" ++
              (if l.description != "" then "Description: " ++ l.description ++ "\n" else "")
            let items := st.items.filter (fun x => x.listId == some li)
            if items.length > 0 then
              hd ++ "\n**Items (" ++ toString items.length ++ "):**\n" ++
                strJoin "\n" (items.map (fun x => "• " ++ x.content))
            else hd ++ "\nNo items in this list yet."
          | none => base
        | none => base ++ "\n\n📝 No list assigned to this event."
      (st, .ok (textResult text))

/-- The `executeOperation` dispatch switch. -/
def executeOperation (name : String) (a : ToolArgs) (st : Store) :
    Store × Except RErr MResult :=
  if name == "create_event" then createEvent a st
  else if name == "get_events" then getEvents a st
  else if name == "update_event" then updateEvent a st
  else if name == "delete_event" then deleteEvent a st
  else if name == "create_list" then createList a st
  else if name == "get_lists" then getLists a st
  else if name == "update_list" then updateList a st
  else if name == "delete_list" then deleteList a st
  else if name == "create_item" then createItem a st
  else if name == "get_items" then getItems a st
  else if name == "update_item" then updateItem a st
  else if name == "delete_item" then deleteItem a st
  else if name == "assign_list_to_event" then assignListToEvent a st
  else if name == "unassign_list_from_event" then unassignListFromEvent a st
  else if name == "get_event_with_list_and_items" then getEventWithListAndItems a st
  else (st, .error (.mcp (.methodNotFound ("Unknown operation: " ++ name))))

def isReadOperation (operationName : String) : Bool :=
  ["get_events", "get_lists", "get_items", "get_event_with_list_and_items",
    "get_context"].contains operationName

end Mem

/-! ### Confirmation workflow and request handler of the memory-enhanced
server -/

namespace Mem

/-- Full server state: pending-operation map, id counter, contextual
memory, data store. -/
structure SrvState where
  pending : List (OpKey × PendingEntry) := []
  counter : Nat := 0
  memory : MemoryState := {}
  store : Store := {}
deriving DecidableEq

/-- Session-id extraction: the constant `"default"`, regardless of the
request. -/
def getSessionId (_req : Request) : String := "default"

def requestConfirmation (now : Nat) (name : String) (args : ToolArgs)
    (s : SrvState) : SrvState × Except RErr MResult :=
  let oid := opIdString (s.counter + 1) now
  ({ s with
      counter := s.counter + 1,
      pending := pendingAfterRequest now name args s.counter s.pending },
   .ok (textResult (confirmPrompt (generateConfirmationMessage name args) oid)))

/-- `executeConfirmation`: delete the pending entry first, then cancel or
execute; on success record the interaction under the hard-coded session id
`"default"` and wrap the result text.  A missing `pendingOp`
(`undefined` in the source) makes both branches read `.name` of
`undefined` and throw a `TypeError`. -/
def executeConfirmation (now : Nat) (key? : Option OpKey)
    (p? : Option PendingEntry) (shouldConfirm : Bool) (s : SrvState) :
    SrvState × Except RErr MResult :=
  let s :=
    { s with
      pending := match key? with | some k => aerase k s.pending | none => s.pending }
  match p? with
  | none => (s, .error (.typeErr "Cannot read properties of undefined"))
  | some p =>
    if !shouldConfirm then
      (s, .ok (textResult ("❌ Operation cancelled: " ++ p.name)))
    else
      match executeOperation p.name p.args s.store with
      | (st, .error e) => ({ s with store := st }, .error e)
      | (st, .ok r) =>
        let s := { s with store := st }
        let s :=
          { s with memory := addInteraction now "default" p.name p.args (.ok r) s.memory }
        match r.content with
        | [] => (s, .error (.typeErr "Cannot read properties of undefined"))
        | c :: _ =>
          (s, .ok (textResult ("✅ Operation confirmed and executed:\n\n" ++ c.text)))

/-- The key under which the alias says the real entry lives. -/
def aliasTarget (lastOp : PendingEntry) : Option OpKey :=
  match lastOp.id? with
  | some (c, t) => some (.opId c t)
  | none => none

/-- `handleConfirmation` of the memory-enhanced server.  Branch order as in
the source: free text (with no explicit id), then explicit id, then bare
boolean, then failure.  The free-text path does NOT delete the
`last_operation` alias. -/
def handleConfirmation (now : Nat) (args : ToolArgs) (s : SrvState) :
    SrvState × Except RErr MResult :=
  if jsTruthyStr args.response && args.operationId.isNone then
    match afind .lastOp s.pending with
    | none =>
      (s, .error (.mcp (.invalidRequest
        "No pending operation found. Please make a request first.")))
    | some lastOp =>
      let pendingOp := (aliasTarget lastOp).bind (fun k => afind k s.pending)
      match classifyResponse (args.response.getD "") with
      | some b => executeConfirmation now (aliasTarget lastOp) pendingOp b s
      | none =>
        (s, .error (.mcp (.invalidRequest
          "Please respond with \"yes\"/\"confirm\" to proceed or \"no\"/\"cancel\" to abort.")))
  else
    match args.operationId with
    | some k =>
      match afind k s.pending with
      | none =>
        (s, .error (.mcp (.invalidRequest
          ("No pending operation found with ID: " ++ opKeyString k))))
      | some p => executeConfirmation now (some k) (some p) (jsTruthyBool args.confirm) s
    | none =>
      match args.confirm with
      | some b =>
        match afind .lastOp s.pending with
        | none =>
          (s, .error (.mcp (.invalidRequest
            "No pending operation found. Please make a request first.")))
        | some lastOp =>
          let pendingOp := (aliasTarget lastOp).bind (fun k => afind k s.pending)
          executeConfirmation now (aliasTarget lastOp) pendingOp b s
      | none =>
        (s, .error (.mcp (.invalidRequest
          "Please provide either operationId + confirm, or a natural language response.")))

/-- `handleGetContext`: render the conversation context (plus suggestions
when both `operation` and `params` are supplied). -/
def focusType : Focus → String
  | .event _ _ => "event"
  | .list _ _ => "list"
  | .eventListRel _ _ => "event_list_relationship"

/-- The `title || name || id` chain of the focus rendering. -/
def focusLabel : Focus → String
  | .event id title => if jsTruthyStr title then showOptStr title else showNullStr id
  | .list id nm => if jsTruthyStr nm then showOptStr nm else showNullStr id
  | .eventListRel _ _ => "undefined"

/-- JavaScript `s || fallback` on strings. -/
def orIfEmpty (s fallback : String) : String := if s == "" then fallback else s

/-- Object.entries of the preferences, in field order (JavaScript object
key order is insertion order; no verified property inspects this text). -/
def prefsEntries (p : UserPrefs) : List String :=
  (p.preferredCalendar.map (fun v => "• preferredCalendar: " ++ v)).toList ++
    (p.userId.map (fun v => "• userId: " ++ v)).toList

def handleGetContext (now : Nat) (sid : String) (args : ToolArgs)
    (mem : MemoryState) : MemoryState × Except RErr MResult :=
  let (ctx, mem) := getConversationContext now sid mem
  let (suggestions, mem) :=
    if jsTruthyStr args.operation && args.params.isSome then
      getContextualSuggestions now sid (args.operation.getD "") (args.params.getD {}) mem
    else ([], mem)
  let text :=
    "📋 **Current Context**\n\n" ++
      "**Current Focus:** " ++
      (match ctx.currentFocus with
        | some f => focusType f ++ " - " ++ focusLabel f
        | none => "None") ++ "\n\n" ++
      "**Recent Activity:**\n" ++
      orIfEmpty (strJoin "\n" (ctx.recentActivity.map (fun a =>
        "• " ++ a.summary ++ " (" ++ toString a.timestamp ++ ")")))
        "No recent activity" ++ "\n\n" ++
      "**Available for Quick Reference:**\n" ++
      "• Recent Events: " ++
      orIfEmpty (strJoin ", " (ctx.suggestions.events.map (fun e =>
        "\"" ++ showOptStr e.2.1 ++ "\" (" ++ showNullStr e.1 ++ ")"))) "None" ++ "\n" ++
      "• Recent Lists: " ++
      orIfEmpty (strJoin ", " (ctx.suggestions.lists.map (fun l =>
        "\"" ++ showOptStr l.2 ++ "\" (" ++ showNullStr l.1 ++ ")"))) "None" ++ "\n" ++
      "• Recent Items: " ++ toString ctx.suggestions.items.length ++
      " items available\n\n" ++
      (if suggestions.length > 0 then
        "**Suggestions:**\n" ++
          strJoin "\n" (suggestions.map (fun s => "• " ++ s)) ++ "\n\n"
       else "") ++
      "**User Preferences:**\n" ++
      orIfEmpty (strJoin "\n" (prefsEntries ctx.userPreferences)) "None set"
  (mem, .ok (textResult text))

/-- `enhanceResultWithContext`: append contextual suggestions to a read
result (identity when there are none). -/
def enhanceResultWithContext (now : Nat) (sid : String) (operation : String)
    (params : ToolArgs) (result : MResult) (mem : MemoryState) :
    MemoryState × Except RErr MResult :=
  let (suggestions, mem) := getContextualSuggestions now sid operation params.crud mem
  if suggestions.length == 0 then (mem, .ok result)
  else
    match result.content with
    | [] => (mem, .error (.typeErr "Cannot read properties of undefined"))
    | c :: _ =>
      (mem, .ok (textResult
        (c.text ++ "\n\n💡 **Contextual Suggestions:**\n" ++
          strJoin "\n" (suggestions.map (fun s => "• " ++ s)))))

/-- The message carried by an error, as recorded into memory by the catch
block (the `MCP error <code>:` decoration of `McpError.message` is
abbreviated away). -/
def errMessage : RErr → String
  | .mcp (.invalidRequest m) => m
  | .mcp (.methodNotFound m) => m
  | .mcp (.internalError m) => m
  | .typeErr m => m

/-- The try block of the `CallToolRequestSchema` handler: route the
request to context lookup, confirmation, immediate read execution, or
write-confirmation request. -/
def handleToolCallTry (now : Nat) (req : Request) (s : SrvState) :
    SrvState × Except RErr MResult :=
  let name := req.name
  let args := req.args
  let sid := getSessionId req
  if name == "get_context" then
    let (mem, r) := handleGetContext now sid args s.memory
    ({ s with memory := mem }, r)
  else if name == "confirm_operation" then
    match handleConfirmation now args s with
    | (s₁, .ok r) =>
      ({ s₁ with
          memory := addInteraction now sid "confirm_operation" args (.ok r) s₁.memory },
       .ok r)
    | (s₁, .error e) => (s₁, .error e)
  else if isReadOperation name then
    match executeOperation name args s.store with
    | (st, .ok r) =>
      let s₁ := { s with store := st }
      let s₁ :=
        { s₁ with memory := addInteraction now sid name args (.ok r) s₁.memory }
      let (mem, r₂) := enhanceResultWithContext now sid name args r s₁.memory
      ({ s₁ with memory := mem }, r₂)
    | (st, .error e) => ({ s with store := st }, .error e)
  else
    requestConfirmation now name args s

/-- The `CallToolRequestSchema` handler: run the try block, and on any
thrown error record an error interaction and rethrow (non-`McpError`
exceptions are wrapped into `InternalError`). -/
def handleToolCall (now : Nat) (req : Request) (s : SrvState) :
    SrvState × Except McpError MResult :=
  let name := req.name
  let args := req.args
  let sid := getSessionId req
  match handleToolCallTry now req s with
  | (s₁, .ok r) => (s₁, .ok r)
  | (s₁, .error e) =>
    let s₂ :=
      { s₁ with memory := addInteraction now sid name args (.errObj (errMessage e)) s₁.memory }
    match e with
    | .mcp m => (s₂, .error m)
    | .typeErr msg =>
      (s₂, .error (.internalError ("Error executing " ++ name ++ ": " ++ msg)))

end Mem

/-! ## The confirmation-only server variant (index.js) -/

namespace Base

def confirmWords : List String :=
  ["yes", "y", "confirm", "proceed", "ok", "okay", "continue", "go", "do it"]

def cancelWords : List String :=
  ["no", "n", "cancel", "abort", "stop", "nope", "negative"]

def classifyResponse (r : String) : Option Bool :=
  classifyWith confirmWords cancelWords r

def opKeyString : OpKey → String
  | .opId c t => opIdString c t
  | .lastOp => "last_operation"

/-- Server state of the confirmation-only variant (no memory engine). -/
structure SrvState where
  pending : List (OpKey × PendingEntry) := []
  counter : Nat := 0
  store : Store := {}
deriving DecidableEq

def isReadOperation (operationName : String) : Bool :=
  ["get_events", "get_lists", "get_items",
    "get_event_with_list_and_items"].contains operationName

/-! Abstracted `JSON.stringify` renderings (see the header note; no
verified property inspects these strings). -/

def jsonOfEvent (e : EventRec) : String :=
  "\x7b " ++ strJoin ", "
    [jsonField "_id" (toString e.eid),
     jsonField "calendarId" (jsonQuote e.calendarId),
     jsonField "ownerId" (jsonQuote e.ownerId),
     jsonField "title" (jsonQuote e.title),
     jsonField "startDate" (toString e.startDate),
     jsonField "endDate" (toString e.endDate),
     jsonField "status" (jsonQuote e.status),
     jsonField "tags" ("[" ++ strJoin ", " (e.tags.map jsonQuote) ++ "]"),
     jsonField "list" (match e.list with | some l => toString l | none => "null")] ++
    " \x7d"

def jsonOfList (l : ListRec) : String :=
  "\x7b " ++ strJoin ", "
    [jsonField "_id" (toString l.lid),
     jsonField "name" (jsonQuote l.name),
     jsonField "description" (jsonQuote l.description),
     jsonField "userId" (jsonQuote l.userId)] ++ " \x7d"

def jsonOfItem (x : ItemRec) : String :=
  "\x7b " ++ strJoin ", "
    [jsonField "_id" (toString x.iid),
     jsonField "content" (jsonQuote x.content),
     jsonField "listId" (match x.listId with | some l => toString l | none => "null")] ++
    " \x7d"

def jsonArr (l : List String) : String := "[" ++ strJoin ", " l ++ "]"

def createEvent (a : ToolArgs) (st : Store) : Store × Except RErr MResult :=
  let e := Mem.eventFromArgs a.crud st.nextId
  let st := { st with events := st.events ++ [e], nextId := st.nextId + 1 }
  (st, .ok (textResult ("Event created successfully with ID: " ++ toString e.eid)))

/-- Event query of the confirmation-only variant: the `list` schema field
is matched, and both date bounds constrain `startDate`. -/
def matchesEventsFilter (a : CrudArgs) (e : EventRec) : Bool :=
  (match a.calendarId with | some v => e.calendarId == v | none => true) &&
  (match a.ownerId with | some v => e.ownerId == v | none => true) &&
  (match a.status with | some v => e.status == v | none => true) &&
  (match a.listId with | some v => e.list == some v | none => true) &&
  (match a.tags with
    | some ts => if ts.length > 0 then ts.any (fun t => e.tags.contains t) else true
    | none => true) &&
  (match a.startDate with | some s => decide (s ≤ e.startDate) | none => true) &&
  (match a.endDate with | some en => decide (e.startDate ≤ en) | none => true)

def getEvents (a : ToolArgs) (st : Store) : Store × Except RErr MResult :=
  let events := st.events.filter (matchesEventsFilter a.crud)
  (st, .ok (textResult (jsonArr (events.map jsonOfEvent))))

def updateEvent (a : ToolArgs) (st : Store) : Store × Except RErr MResult :=
  match a.crud.eventId with
  | none => (st, .error (.mcp (.invalidRequest "Event not found")))
  | some i =>
    match updEvt i (Mem.applyEventUpdate a.crud) st with
    | (st, none) => (st, .error (.mcp (.invalidRequest "Event not found")))
    | (st, some e) =>
      (st, .ok (textResult ("Event updated successfully: " ++ jsonOfEvent e)))

def deleteEvent (a : ToolArgs) (st : Store) : Store × Except RErr MResult :=
  match a.crud.eventId with
  | none => (st, .error (.mcp (.invalidRequest "Event not found")))
  | some i =>
    match delEvt i st with
    | (st, none) => (st, .error (.mcp (.invalidRequest "Event not found")))
    | (st, some _) => (st, .ok (textResult "Event deleted successfully"))

def createList (a : ToolArgs) (st : Store) : Store × Except RErr MResult :=
  let l : ListRec :=
    { lid := st.nextId, name := a.crud.name.getD "",
      description := a.crud.description.getD "", userId := a.crud.userId.getD "" }
  let st := { st with lists := st.lists ++ [l], nextId := st.nextId + 1 }
  (st, .ok (textResult ("List created successfully with ID: " ++ toString l.lid)))

def getLists (a : ToolArgs) (st : Store) : Store × Except RErr MResult :=
  let lists := st.lists.filter (Mem.matchesListsFilter a.crud)
  (st, .ok (textResult (jsonArr (lists.map jsonOfList))))

def updateList (a : ToolArgs) (st : Store) : Store × Except RErr MResult :=
  match a.crud.listId with
  | none => (st, .error (.mcp (.invalidRequest "List not found")))
  | some i =>
    match updLst i (Mem.applyListUpdate a.crud) st with
    | (st, none) => (st, .error (.mcp (.invalidRequest "List not found")))
    | (st, some l) =>
      (st, .ok (textResult ("List updated successfully: " ++ jsonOfList l)))

/-- `deleteList` of the confirmation-only variant additionally clears the
`list` reference on every event that pointed at the deleted list. -/
def deleteList (a : ToolArgs) (st : Store) : Store × Except RErr MResult :=
  match a.crud.listId with
  | none => (st, .error (.mcp (.invalidRequest "List not found")))
  | some i =>
    match delLst i st with
    | (st, none) => (st, .error (.mcp (.invalidRequest "List not found")))
    | (st, some _) =>
      let st :=
        if jsTruthyBool a.crud.deleteItems then
          (delManyItm (fun x => x.listId == some i) st).1
        else st
      let st :=
        { st with
          events := st.events.map (fun e =>
            if e.list == some i then { e with list := none } else e) }
      (st, .ok (textResult
        ("List deleted successfully" ++
          (if jsTruthyBool a.crud.deleteItems then " (items also deleted)" else ""))))

def createItem (a : ToolArgs) (st : Store) : Store × Except RErr MResult :=
  let x : ItemRec :=
    { iid := st.nextId, content := a.crud.content.getD "", listId := a.crud.listId }
  let st := { st with items := st.items ++ [x], nextId := st.nextId + 1 }
  (st, .ok (textResult ("Item created successfully with ID: " ++ toString x.iid)))

def getItems (a : ToolArgs) (st : Store) : Store × Except RErr MResult :=
  let items := st.items.filter (Mem.matchesItemsFilter a.crud)
  (st, .ok (textResult (jsonArr (items.map jsonOfItem))))

def updateItem (a : ToolArgs) (st : Store) : Store × Except RErr MResult :=
  match a.crud.itemId with
  | none => (st, .error (.mcp (.invalidRequest "Item not found")))
  | some i =>
    match updItm i (fun x => { x with content := a.crud.content.getD x.content }) st with
    | (st, none) => (st, .error (.mcp (.invalidRequest "Item not found")))
    | (st, some x) =>
      (st, .ok (textResult ("Item updated successfully: " ++ jsonOfItem x)))

def deleteItem (a : ToolArgs) (st : Store) : Store × Except RErr MResult :=
  match a.crud.itemId with
  | none => (st, .error (.mcp (.invalidRequest "Item not found")))
  | some i =>
    match delItm i st with
    | (st, none) => (st, .error (.mcp (.invalidRequest "Item not found")))
    | (st, some _) => (st, .ok (textResult "Item deleted successfully"))

/-- `assignListToEvent` of the confirmation-only variant sets the `list`
schema field and performs no existence check on the list. -/
def assignListToEvent (a : ToolArgs) (st : Store) : Store × Except RErr MResult :=
  match a.crud.eventId with
  | none => (st, .error (.mcp (.invalidRequest "Event not found")))
  | some i =>
    match updEvt i (fun e => { e with list := a.crud.listId }) st with
    | (st, none) => (st, .error (.mcp (.invalidRequest "Event not found")))
    | (st, some e) =>
      (st, .ok (textResult ("List assigned to event successfully: " ++ jsonOfEvent e)))

def unassignListFromEvent (a : ToolArgs) (st : Store) : Store × Except RErr MResult :=
  match a.crud.eventId with
  | none => (st, .error (.mcp (.invalidRequest "Event not found")))
  | some i =>
    match updEvt i (fun e => { e with list := none }) st with
    | (st, none) => (st, .error (.mcp (.invalidRequest "Event not found")))
    | (st, some _) =>
      (st, .ok (textResult "List unassigned from event successfully"))

def getEventWithListAndItems (a : ToolArgs) (st : Store) :
    Store × Except RErr MResult :=
  match a.crud.eventId with
  | none => (st, .error (.mcp (.invalidRequest "Event not found")))
  | some i =>
    match findEvt i st with
    | none => (st, .error (.mcp (.invalidRequest "Event not found")))
    | some e =>
      let items : List ItemRec :=
        match e.list with
        | some li => st.items.filter (fun x => x.listId == some li)
        | none => []
      (st, .ok (textResult
        ("\x7b " ++ jsonField "event" (jsonOfEvent e) ++ ", " ++
          jsonField "items" (jsonArr (items.map jsonOfItem)) ++ " \x7d")))

def executeOperation (name : String) (a : ToolArgs) (st : Store) :
    Store × Except RErr MResult :=
  if name == "create_event" then createEvent a st
  else if name == "get_events" then getEvents a st
  else if name == "update_event" then updateEvent a st
  else if name == "delete_event" then deleteEvent a st
  else if name == "create_list" then createList a st
  else if name == "get_lists" then getLists a st
  else if name == "update_list" then updateList a st
  else if name == "delete_list" then deleteList a st
  else if name == "create_item" then createItem a st
  else if name == "get_items" then getItems a st
  else if name == "update_item" then updateItem a st
  else if name == "delete_item" then deleteItem a st
  else if name == "assign_list_to_event" then assignListToEvent a st
  else if name == "unassign_list_from_event" then unassignListFromEvent a st
  else if name == "get_event_with_list_and_items" then getEventWithListAndItems a st
  else (st, .error (.mcp (.methodNotFound ("Unknown tool: " ++ name))))

def requestConfirmation (now : Nat) (name : String) (args : ToolArgs)
    (s : SrvState) : SrvState × Except RErr MResult :=
  let oid := opIdString (s.counter + 1) now
  ({ s with
      counter := s.counter + 1,
      pending := pendingAfterRequest now name args s.counter s.pending },
   .ok (textResult (confirmPrompt (generateConfirmationMessage name args) oid)))

/-- `executeConfirmation`: delete the pending entry first, then cancel or
execute and wrap the result text.  A missing `pendingOp` throws a
`TypeError` on the `.name` access. -/
def executeConfirmation (_now : Nat) (key? : Option OpKey)
    (p? : Option PendingEntry) (shouldConfirm : Bool) (s : SrvState) :
    SrvState × Except RErr MResult :=
  let s :=
    { s with
      pending := match key? with | some k => aerase k s.pending | none => s.pending }
  match p? with
  | none => (s, .error (.typeErr "Cannot read properties of undefined"))
  | some p =>
    if !shouldConfirm then
      (s, .ok (textResult ("❌ Operation cancelled: " ++ p.name)))
    else
      match executeOperation p.name p.args s.store with
      | (st, .error e) => ({ s with store := st }, .error e)
      | (st, .ok r) =>
        match r.content with
        | [] => ({ s with store := st }, .error (.typeErr "Cannot read properties of undefined"))
        | c :: _ =>
          ({ s with store := st },
           .ok (textResult ("✅ Operation confirmed and executed:\n\n" ++ c.text)))

def aliasTarget (lastOp : PendingEntry) : Option OpKey :=
  match lastOp.id? with
  | some (c, t) => some (.opId c t)
  | none => none

/-- `handleConfirmation` of the confirmation-only server: the free-text
path deletes the `last_operation` alias after classification; the explicit
path requires `operationId`, and there is no bare-boolean path. -/
def handleConfirmation (now : Nat) (args : ToolArgs) (s : SrvState) :
    SrvState × Except RErr MResult :=
  if jsTruthyStr args.response && args.operationId.isNone then
    match afind .lastOp s.pending with
    | none =>
      (s, .error (.mcp (.invalidRequest
        "No pending operation found. Please specify an operationId or ensure there is a recent operation awaiting confirmation.")))
    | some lastOp =>
      let pendingOp := (aliasTarget lastOp).bind (fun k => afind k s.pending)
      match classifyResponse (args.response.getD "") with
      | some b =>
        let s := { s with pending := aerase .lastOp s.pending }
        executeConfirmation now (aliasTarget lastOp) pendingOp b s
      | none =>
        (s, .error (.mcp (.invalidRequest
          "Please respond with a clear confirmation like \"yes\", \"confirm\", \"proceed\" OR \"no\", \"cancel\", \"abort\"")))
  else
    match args.operationId with
    | none =>
      (s, .error (.mcp (.invalidRequest
        "Either operationId or response must be provided")))
    | some k =>
      match afind k s.pending with
      | none =>
        (s, .error (.mcp (.invalidRequest
          ("Operation " ++ opKeyString k ++ " not found or has expired"))))
      | some p => executeConfirmation now (some k) (some p) (jsTruthyBool args.confirm) s

/-- `cleanupExpiredOperations`: remove every pending entry (the alias
included) whose timestamp is more than five minutes old. -/
def cleanupExpiredOperations (now : Nat)
    (pending : List (OpKey × PendingEntry)) : List (OpKey × PendingEntry) :=
  pending.filter (fun kv => !(decide (now - kv.2.timestamp > 5 * 60 * 1000)))

/-- The `CallToolRequestSchema` handler of the confirmation-only server. -/
def handleToolCall (now : Nat) (req : Request) (s : SrvState) :
    SrvState × Except McpError MResult :=
  let name := req.name
  let args := req.args
  let inner : SrvState × Except RErr MResult :=
    if name == "confirm_operation" then handleConfirmation now args s
    else if isReadOperation name then
      match executeOperation name args s.store with
      | (st, r) => ({ s with store := st }, r)
    else requestConfirmation now name args s
  match inner with
  | (s₁, .ok r) => (s₁, .ok r)
  | (s₁, .error (.mcp m)) => (s₁, .error m)
  | (s₁, .error (.typeErr msg)) =>
    (s₁, .error (.internalError ("Error executing " ++ name ++ ": " ++ msg)))

end Base

deriving instance DecidableEq for Except

/-! ## Specification-side definitions and helper lemmas -/

/-- The affirmative word list as written in the specification. -/
def specConfirmWords : List String :=
  ["yes", "y", "confirm", "proceed", "ok", "okay", "continue", "go", "do it"]

/-- The negative word list as written in the specification. -/
def specCancelWords : List String :=
  ["no", "n", "cancel", "abort", "stop", "nope", "negative"]

/-- Classification by the specification's word lists (for comparison with
the two source classifiers). -/
def specClassify (r : String) : Option Bool :=
  classifyWith specConfirmWords specCancelWords r

theorem classifyWith_pos {cw xw : List String} {r w : String}
    (hmem : w ∈ cw) (h : strIncludes (jsNormalize r) w = true) :
    classifyWith cw xw r = some true := by
  have hany : cw.any (fun w₁ => strIncludes (jsNormalize r) w₁) = true :=
    List.any_eq_true.mpr ⟨w, hmem, h⟩
  simp [classifyWith, hany]

theorem mem_confirmWords_sub_base :
    ∀ w ∈ Mem.confirmWords, w ∈ Base.confirmWords := by decide

theorem strIncludes_empty_y : strIncludes (jsNormalize "") "y" = false := by decide


/-- Store effect of an affirmed `executeConfirmation` on a live entry: the
stored operation is applied to the store (whether or not it succeeds). -/
theorem store_executeConfirmation_true (now : Nat) (k? : Option OpKey)
    (p : PendingEntry) (s : Mem.SrvState) :
    (Mem.executeConfirmation now k? (some p) true s).1.store =
      (Mem.executeOperation p.name p.args s.store).1 := by
  simp only [Mem.executeConfirmation]
  cases hE : Mem.executeOperation p.name p.args s.store with
  | mk st r =>
    cases r with
    | error e => simp
    | ok res =>
      rcases res with ⟨content⟩
      cases content <;> simp

/-- C7: a free-text response containing both an affirmative and a negative
token is classified affirmative in both server variants, because the
affirmative list is tested before the negative list. -/
theorem c7_affirmative_list_checked_first (r : String)
    (ha : ∃ w ∈ Mem.confirmWords, strIncludes (jsNormalize r) w = true)
    (_hb : ∃ w ∈ Mem.cancelWords, strIncludes (jsNormalize r) w = true) :
    Mem.classifyResponse r = some true ∧ Base.classifyResponse r = some true := by
  obtain ⟨w, hw, hinc⟩ := ha
  exact ⟨classifyWith_pos hw hinc,
    classifyWith_pos (mem_confirmWords_sub_base w hw) hinc⟩

/-- Witness for C7 at the specification's own example phrase. -/
theorem c7_witness :
    Mem.classifyResponse "yes, but actually no" = some true ∧
    Base.classifyResponse "yes, but actually no" = some true :=
  c7_affirmative_list_checked_first "yes, but actually no"
    ⟨"yes", by decide, by decide⟩ ⟨"no", by decide, by decide⟩

/-- C5: any free-text response whose normalization contains the letter `y`
is classified affirmative (the one-letter token `y` is in both affirmative
lists and the affirmative list is checked first), and the pending
operation reachable through the alias is then executed. -/
theorem c5_letter_y_classifies_affirmative (now : Nat) (s : Mem.SrvState)
    (c t : Nat) (la p : PendingEntry) (r : String)
    (hla : afind .lastOp s.pending = some la)
    (hid : la.id? = some (c, t))
    (hp : afind (.opId c t) s.pending = some p)
    (hy : strIncludes (jsNormalize r) "y" = true) :
    Mem.classifyResponse r = some true ∧
    Base.classifyResponse r = some true ∧
    Mem.handleConfirmation now { response := some r } s =
      Mem.executeConfirmation now (some (.opId c t)) (some p) true s ∧
    (Mem.handleConfirmation now { response := some r } s).1.store =
      (Mem.executeOperation p.name p.args s.store).1 := by
  have hm : Mem.classifyResponse r = some true := classifyWith_pos (by decide) hy
  have hb : Base.classifyResponse r = some true := classifyWith_pos (by decide) hy
  have hrne : (r == "") = false := by
    cases hEq : r == "" with
    | false => rfl
    | true =>
      have hr0 : r = "" := eq_of_beq hEq
      subst hr0
      rw [strIncludes_empty_y] at hy
      exact Bool.noConfusion hy
  have hmain : Mem.handleConfirmation now { response := some r } s =
      Mem.executeConfirmation now (some (.opId c t)) (some p) true s := by
    simp [Mem.handleConfirmation, jsTruthyStr, hrne, hla, Mem.aliasTarget, hid, hp, hm]
  exact ⟨hm, hb, hmain, by rw [hmain]; exact store_executeConfirmation_true ..⟩

def wEntry : PendingEntry :=
  { name := "create_list",
    args := { crud := { name := some "Groceries", userId := some "u1" } },
    timestamp := 5 }

def wAlias : PendingEntry :=
  { id? := some (1, 5), name := "create_list",
    args := { crud := { name := some "Groceries", userId := some "u1" } },
    timestamp := 5 }

/-- Server state with one pending `create_list` write and its alias,
exactly as `requestConfirmation` leaves them. -/
def wState : Mem.SrvState :=
  { pending := [(.lastOp, wAlias), (.opId 1 5, wEntry)], counter := 1 }

/-- Witness for C5: the negative-sounding phrase `definitely not` contains
the letter `y` and therefore confirms and executes the pending write. -/
theorem c5_witness :
    Mem.classifyResponse "definitely not" = some true ∧
    Base.classifyResponse "definitely not" = some true ∧
    Mem.handleConfirmation 7 { response := some "definitely not" } wState =
      Mem.executeConfirmation 7 (some (.opId 1 5)) (some wEntry) true wState ∧
    (Mem.handleConfirmation 7 { response := some "definitely not" } wState).1.store =
      (Mem.executeOperation wEntry.name wEntry.args wState.store).1 :=
  c5_letter_y_classifies_affirmative 7 wState 1 5 wAlias wEntry "definitely not"
    (by decide) (by decide) (by decide) (by decide)

/-- Store projection of the tool-call wrapper around `handleConfirmation`
(the surrounding memory recording never touches the data store). -/
theorem store_handleToolCall_confirm (now : Nat) (a : ToolArgs)
    (s : Mem.SrvState) :
    (Mem.handleToolCall now ⟨"confirm_operation", a⟩ s).1.store =
      (Mem.handleConfirmation now a s).1.store := by
  cases hE : Mem.handleConfirmation now a s with
  | mk s₁ r =>
    cases r with
    | ok v => simp [Mem.handleToolCall, Mem.handleToolCallTry, hE]
    | error e => cases e <;> simp [Mem.handleToolCall, Mem.handleToolCallTry, hE]

/-- C6: confirming by free text classified affirmative equals confirming
the alias's operation id with `confirm = true`; both paths delegate to the
same `executeConfirmation` of the stored operation, so the whole results
(state and reply) coincide, and in particular the data-store mutation at
the tool-call surface does. -/
theorem c6_free_text_equiv_explicit_confirm (now : Nat) (s : Mem.SrvState)
    (c t : Nat) (la p : PendingEntry) (r : String)
    (hla : afind .lastOp s.pending = some la)
    (hid : la.id? = some (c, t))
    (hp : afind (.opId c t) s.pending = some p)
    (hr : Mem.classifyResponse r = some true)
    (hrne : r ≠ "") :
    Mem.handleConfirmation now { response := some r } s =
      Mem.handleConfirmation now { operationId := some (.opId c t), confirm := some true } s ∧
    (Mem.handleToolCall now ⟨"confirm_operation", { response := some r }⟩ s).1.store =
      (Mem.handleToolCall now ⟨"confirm_operation",
        { operationId := some (.opId c t), confirm := some true }⟩ s).1.store := by
  have hbeq : (r == "") = false := beq_eq_false_iff_ne.mpr hrne
  have h1 : Mem.handleConfirmation now { response := some r } s =
      Mem.executeConfirmation now (some (.opId c t)) (some p) true s := by
    simp [Mem.handleConfirmation, jsTruthyStr, hbeq, hla, Mem.aliasTarget, hid, hp, hr]
  have h2 : Mem.handleConfirmation now
      { operationId := some (.opId c t), confirm := some true } s =
      Mem.executeConfirmation now (some (.opId c t)) (some p) true s := by
    simp [Mem.handleConfirmation, jsTruthyStr, hp, jsTruthyBool]
  refine ⟨h1.trans h2.symm, ?_⟩
  rw [store_handleToolCall_confirm, store_handleToolCall_confirm, h1, h2]

/-- Witness for C6 on a concrete pending `create_list` write. -/
theorem c6_witness :
    Mem.handleConfirmation 7 { response := some "yes" } wState =
      Mem.handleConfirmation 7
        { operationId := some (.opId 1 5), confirm := some true } wState ∧
    (Mem.handleToolCall 7 ⟨"confirm_operation", { response := some "yes" }⟩ wState).1.store =
      (Mem.handleToolCall 7 ⟨"confirm_operation",
        { operationId := some (.opId 1 5), confirm := some true }⟩ wState).1.store :=
  c6_free_text_equiv_explicit_confirm 7 wState 1 5 wAlias wEntry "yes"
    (by decide) (by decide) (by decide) (by decide) (by decide)

/-- C4 (amended): the confirmation-only server classifies by exactly the
specification's word lists; the memory-enhanced server uses the shorter
lists `[yes, confirm, proceed, ok, y, go, continue]` /
`[no, cancel, abort, stop, n, decline]`; in both variants, free text
matching neither list fails with an `InvalidRequest` asking for an
unambiguous reply, leaving the state unchanged. -/
theorem c4_classifier_word_lists :
    (∀ r, Base.classifyResponse r = specClassify r) ∧
    Mem.confirmWords = ["yes", "confirm", "proceed", "ok", "y", "go", "continue"] ∧
    Mem.cancelWords = ["no", "cancel", "abort", "stop", "n", "decline"] ∧
    (∀ (now : Nat) (r : String) (s : Base.SrvState) (la : PendingEntry),
      afind .lastOp s.pending = some la → r ≠ "" →
      Base.classifyResponse r = none →
      Base.handleConfirmation now { response := some r } s =
        (s, .error (.mcp (.invalidRequest
          "Please respond with a clear confirmation like \"yes\", \"confirm\", \"proceed\" OR \"no\", \"cancel\", \"abort\"")))) ∧
    (∀ (now : Nat) (r : String) (s : Mem.SrvState) (la : PendingEntry),
      afind .lastOp s.pending = some la → r ≠ "" →
      Mem.classifyResponse r = none →
      Mem.handleConfirmation now { response := some r } s =
        (s, .error (.mcp (.invalidRequest
          "Please respond with \"yes\"/\"confirm\" to proceed or \"no\"/\"cancel\" to abort.")))) := by
  refine ⟨fun r => rfl, rfl, rfl, ?_, ?_⟩
  · intro now r s la hla hne hcl
    have hbeq : (r == "") = false := beq_eq_false_iff_ne.mpr hne
    simp [Base.handleConfirmation, jsTruthyStr, hbeq, hla, hcl]
  · intro now r s la hla hne hcl
    have hbeq : (r == "") = false := beq_eq_false_iff_ne.mpr hne
    simp [Mem.handleConfirmation, jsTruthyStr, hbeq, hla, hcl]

def bState : Base.SrvState :=
  { pending := [(.lastOp, wAlias), (.opId 1 5, wEntry)], counter := 1 }

/-- Witness for C4 (amended) at the unmatched response `whatever`. -/
theorem c4_witness :
    Base.classifyResponse "whatever" = specClassify "whatever" ∧
    Base.handleConfirmation 7 { response := some "whatever" } bState =
      (bState, .error (.mcp (.invalidRequest
        "Please respond with a clear confirmation like \"yes\", \"confirm\", \"proceed\" OR \"no\", \"cancel\", \"abort\""))) ∧
    Mem.handleConfirmation 7 { response := some "whatever" } wState =
      (wState, .error (.mcp (.invalidRequest
        "Please respond with \"yes\"/\"confirm\" to proceed or \"no\"/\"cancel\" to abort."))) :=
  ⟨c4_classifier_word_lists.1 "whatever",
   c4_classifier_word_lists.2.2.2.1 7 "whatever" bState wAlias (by decide) (by decide) (by decide),
   c4_classifier_word_lists.2.2.2.2 7 "whatever" wState wAlias (by decide) (by decide) (by decide)⟩

/-- Counterexample for C4 as stated: the claim's affirmative list contains
`do it`, but the memory-enhanced server classifies `do it` as unmatched
and rejects it with `InvalidRequest` even while a pending operation
awaits confirmation. -/
theorem c4_counterexample :
    Mem.classifyResponse "do it" = none ∧
    specClassify "do it" = some true ∧
    (Mem.handleToolCall 7 ⟨"confirm_operation", { response := some "do it" }⟩ wState).2 =
      .error (.invalidRequest
        "Please respond with \"yes\"/\"confirm\" to proceed or \"no\"/\"cancel\" to abort.") :=
  ⟨by decide, by decide, by decide⟩

/-- Generated ids are fresh: under the invariant that every real key's
counter component is at most the current counter, the key minted from
`counter + 1` cannot already be in the map. -/
theorem afind_opId_none_of_bound (m : List (OpKey × PendingEntry))
    (cnt now : Nat)
    (h : ∀ kv ∈ m, ∀ c t, kv.1 = OpKey.opId c t → c ≤ cnt) :
    afind (.opId (cnt + 1) now) m = none := by
  induction m with
  | nil => rfl
  | cons hd tl ih =>
    obtain ⟨k, v⟩ := hd
    by_cases he : k = OpKey.opId (cnt + 1) now
    · exfalso
      have hle := h (k, v) (List.mem_cons_self _ _) (cnt + 1) now he
      omega
    · simp only [afind, if_neg he]
      exact ih (fun kv hm => h kv (List.mem_cons_of_mem _ hm))

/-- The write tool names of the external interface. -/
def writeOpNames : List String :=
  ["create_event", "update_event", "delete_event", "create_list",
   "update_list", "delete_list", "create_item", "update_item",
   "delete_item", "assign_list_to_event", "unassign_list_from_event"]

/-- C2: submitting any write tool call mutates neither the data store nor
the memory; it only increments the counter, records the pending entry
under the fresh id plus the `last_operation` alias, and returns a prompt
whose text contains the fresh id. -/
theorem c2_write_submission_only_pends (now : Nat) (req : Request)
    (s : Mem.SrvState)
    (hw : req.name ∈ writeOpNames)
    (hctr : ∀ kv ∈ s.pending, ∀ c t, kv.1 = OpKey.opId c t → c ≤ s.counter) :
    (Mem.handleToolCall now req s).1.store = s.store ∧
    (Mem.handleToolCall now req s).1.memory = s.memory ∧
    (Mem.handleToolCall now req s).1.counter = s.counter + 1 ∧
    (Mem.handleToolCall now req s).1.pending =
      pendingAfterRequest now req.name req.args s.counter s.pending ∧
    afind (.opId (s.counter + 1) now) s.pending = none ∧
    ∃ pre post,
      (Mem.handleToolCall now req s).2 =
        .ok ⟨[{ type := "text",
                text := pre ++ opIdString (s.counter + 1) now ++ post }]⟩ := by
  obtain ⟨name, args⟩ := req
  have hfresh := afind_opId_none_of_bound s.pending s.counter now hctr
  fin_cases hw <;>
    exact ⟨rfl, rfl, rfl, rfl, hfresh,
      "⚠️  CONFIRMATION REQUIRED\n\n" ++ generateConfirmationMessage _ args ++
        "\n\nOperation ID: ",
      "\n\nTo proceed, you can either:\n1. Use the confirm_operation tool with operationId: \"" ++
        opIdString (s.counter + 1) now ++
        "\" and confirm: true/false\n2. Simply reply with \"yes\", \"confirm\", \"proceed\" to confirm OR \"no\", \"cancel\", \"abort\" to cancel",
      rfl⟩

def emptyState : Mem.SrvState := {}

def c2Req : Request :=
  ⟨"create_list", { crud := { name := some "Groceries", userId := some "u1" } }⟩

/-- Witness for C2 on a concrete `create_list` submission from the empty
state. -/
theorem c2_witness :
    (Mem.handleToolCall 5 c2Req emptyState).1.store = emptyState.store ∧
    (Mem.handleToolCall 5 c2Req emptyState).1.memory = emptyState.memory ∧
    (Mem.handleToolCall 5 c2Req emptyState).1.counter = emptyState.counter + 1 ∧
    (Mem.handleToolCall 5 c2Req emptyState).1.pending =
      pendingAfterRequest 5 c2Req.name c2Req.args emptyState.counter emptyState.pending ∧
    afind (.opId (emptyState.counter + 1) 5) emptyState.pending = none ∧
    ∃ pre post,
      (Mem.handleToolCall 5 c2Req emptyState).2 =
        .ok ⟨[{ type := "text",
                text := pre ++ opIdString (emptyState.counter + 1) 5 ++ post }]⟩ :=
  c2_write_submission_only_pends 5 c2Req emptyState (by decide)
    (fun kv hkv => absurd hkv (List.not_mem_nil kv))

/-! ## Interaction-log bound (C9) -/

/-- The interaction log of a session (empty when the session does not
exist yet). -/
def interactionsOf (sid : String) (mem : Mem.MemoryState) :
    List Mem.Interaction :=
  ((afind sid mem.sessions).map Mem.Session.interactions).getD []

/-- One recorded interaction call, for replaying arbitrary sequences. -/
structure RecordEvt where
  now : Nat
  sid : String
  operation : String
  params : ToolArgs
  result : Mem.RecResult

/-- Replay a sequence of `recordInteraction` calls. -/
def replay (evs : List RecordEvt) (mem : Mem.MemoryState) : Mem.MemoryState :=
  evs.foldl
    (fun m e => Mem.addInteraction e.now e.sid e.operation e.params e.result m) mem

theorem updateContext_interactions (now : Nat) (op : String) (p : ToolArgs)
    (r : Mem.RecResult) (sess : Mem.Session) :
    (Mem.updateContext now op p r sess).interactions = sess.interactions := rfl

theorem addInteraction_maxEntries (now : Nat) (sid op : String) (p : ToolArgs)
    (r : Mem.RecResult) (mem : Mem.MemoryState) :
    (Mem.addInteraction now sid op p r mem).maxEntries = mem.maxEntries := by
  cases hS : afind sid mem.sessions <;>
    simp [Mem.addInteraction, Mem.getSession, hS]

/-- Effect of `addInteraction` on the recorded session's own log. -/
theorem interactionsOf_addInteraction_self (now : Nat) (sid op : String)
    (p : ToolArgs) (r : Mem.RecResult) (mem : Mem.MemoryState) :
    interactionsOf sid (Mem.addInteraction now sid op p r mem) =
      (let L := interactionsOf sid mem
       let i : Mem.Interaction :=
         { timestamp := now, operation := op, params := Mem.sanitizeParams p,
           result := Mem.sanitizeResult r }
       if L.length + 1 > mem.maxEntries then (i :: L).take mem.maxEntries
       else i :: L) := by
  cases hS : afind sid mem.sessions with
  | none =>
    simp [interactionsOf, Mem.addInteraction, Mem.getSession, hS,
      afind_aset_self, Mem.freshSession, updateContext_interactions]
  | some sess =>
    simp [interactionsOf, Mem.addInteraction, Mem.getSession, hS,
      afind_aset_self, updateContext_interactions]

/-- `addInteraction` leaves every other session's log unchanged. -/
theorem interactionsOf_addInteraction_other {sid sid' : String} (now : Nat)
    (op : String) (p : ToolArgs) (r : Mem.RecResult) (mem : Mem.MemoryState)
    (hne : sid' ≠ sid) :
    interactionsOf sid' (Mem.addInteraction now sid op p r mem) =
      interactionsOf sid' mem := by
  cases hS : afind sid mem.sessions <;>
    simp [interactionsOf, Mem.addInteraction, Mem.getSession, hS,
      afind_aset_ne _ _ hne]

/-- After any single `addInteraction`, the recorded session's log is
within the bound, and other sessions keep their previous length. -/
theorem addInteraction_bound (now : Nat) (sid sid' op : String) (p : ToolArgs)
    (r : Mem.RecResult) (mem : Mem.MemoryState)
    (h : (interactionsOf sid' mem).length ≤ mem.maxEntries) :
    (interactionsOf sid' (Mem.addInteraction now sid op p r mem)).length ≤
      mem.maxEntries := by
  by_cases hne : sid' = sid
  · subst hne
    rw [interactionsOf_addInteraction_self]
    simp only []
    split
    · simp [List.length_take]
    · next hle =>
      simp only [List.length_cons]
      omega
  · rw [interactionsOf_addInteraction_other now op p r mem hne]
    exact h

theorem replay_bound (evs : List RecordEvt) (mem : Mem.MemoryState)
    (hinv : ∀ sid, (interactionsOf sid mem).length ≤ mem.maxEntries) :
    (replay evs mem).maxEntries = mem.maxEntries ∧
    ∀ sid, (interactionsOf sid (replay evs mem)).length ≤ mem.maxEntries := by
  induction evs generalizing mem with
  | nil => exact ⟨rfl, hinv⟩
  | cons e evs ih =>
    have hstep : ∀ sid,
        (interactionsOf sid
          (Mem.addInteraction e.now e.sid e.operation e.params e.result mem)).length ≤
          mem.maxEntries :=
      fun sid => addInteraction_bound e.now e.sid sid e.operation e.params
        e.result mem (hinv sid)
    have hmax := addInteraction_maxEntries e.now e.sid e.operation e.params
      e.result mem
    have := ih (Mem.addInteraction e.now e.sid e.operation e.params e.result mem)
      (by rw [hmax]; exact hstep)
    rw [hmax] at this
    exact ⟨this.1, this.2⟩

/-- C9: the interaction log never exceeds `maxEntries` over any replayed
sequence of recordings, and recording into a full log prepends the new
interaction and evicts the oldest entry, preserving the order of the
survivors. -/
theorem c9_interaction_log_bounded (mem : Mem.MemoryState)
    (hinv : ∀ sid, (interactionsOf sid mem).length ≤ mem.maxEntries) :
    (∀ evs sid, (interactionsOf sid (replay evs mem)).length ≤ mem.maxEntries) ∧
    (∀ (now : Nat) (sid op : String) (p : ToolArgs) (r : Mem.RecResult),
      (interactionsOf sid mem).length = mem.maxEntries →
      1 ≤ mem.maxEntries →
      interactionsOf sid (Mem.addInteraction now sid op p r mem) =
        ({ timestamp := now, operation := op, params := Mem.sanitizeParams p,
           result := Mem.sanitizeResult r } : Mem.Interaction) ::
          (interactionsOf sid mem).dropLast) := by
  constructor
  · exact fun evs sid => (replay_bound evs mem hinv).2 sid
  · intro now sid op p r hfull hpos
    rw [interactionsOf_addInteraction_self]
    simp only []
    rw [if_pos (by omega)]
    have hm : mem.maxEntries = (mem.maxEntries - 1) + 1 := by omega
    rw [hm, List.take_succ_cons]
    congr 1
    rw [← hfull, List.dropLast_eq_take]

def wInter : Mem.Interaction :=
  { timestamp := 0, operation := "get_lists", params := {}, result := .contentTag }

def wSession : Mem.Session :=
  { interactions := [wInter, wInter], created := 0, lastAccessed := 0 }

/-- A memory whose default session log is full (bound 2). -/
def wMem : Mem.MemoryState := { maxEntries := 2, sessions := [("default", wSession)] }

/-- Witness for C9 at a concrete full log. -/
theorem c9_witness :
    (∀ evs sid, (interactionsOf sid (replay evs wMem)).length ≤ wMem.maxEntries) ∧
    (∀ (now : Nat) (sid op : String) (p : ToolArgs) (r : Mem.RecResult),
      (interactionsOf sid wMem).length = wMem.maxEntries →
      1 ≤ wMem.maxEntries →
      interactionsOf sid (Mem.addInteraction now sid op p r wMem) =
        ({ timestamp := now, operation := op, params := Mem.sanitizeParams p,
           result := Mem.sanitizeResult r } : Mem.Interaction) ::
          (interactionsOf sid wMem).dropLast) :=
  c9_interaction_log_bounded wMem (by
    intro sid
    by_cases h : ("default" : String) = sid <;>
      simp [interactionsOf, wMem, afind, h, wSession])

/-! ## Session frame lemmas and the global session id (C10) -/

theorem sessions_frame_getSession {sid sid' : String} (hne : sid ≠ sid')
    (now : Nat) (mem : Mem.MemoryState) :
    afind sid (Mem.getSession now sid' mem).2.sessions =
      afind sid mem.sessions := by
  cases hS : afind sid' mem.sessions <;>
    simp [Mem.getSession, hS, afind_aset_ne _ _ hne]

theorem sessions_frame_addInteraction {sid sid' : String} (hne : sid ≠ sid')
    (now : Nat) (op : String) (p : ToolArgs) (r : Mem.RecResult)
    (mem : Mem.MemoryState) :
    afind sid (Mem.addInteraction now sid' op p r mem).sessions =
      afind sid mem.sessions := by
  cases hS : afind sid' mem.sessions <;>
    simp [Mem.addInteraction, Mem.getSession, hS, afind_aset_ne _ _ hne]

theorem sessions_frame_getContextualSuggestions {sid sid' : String}
    (hne : sid ≠ sid') (now : Nat) (opn : String) (ca : CrudArgs)
    (mem : Mem.MemoryState) :
    afind sid (Mem.getContextualSuggestions now sid' opn ca mem).2.sessions =
      afind sid mem.sessions := by
  have h := sessions_frame_getSession hne now mem
  cases hG : Mem.getSession now sid' mem with
  | mk sess mem₁ =>
    rw [hG] at h
    simp [Mem.getContextualSuggestions, hG, h]

theorem sessions_frame_getConversationContext {sid sid' : String}
    (hne : sid ≠ sid') (now : Nat) (mem : Mem.MemoryState) :
    afind sid (Mem.getConversationContext now sid' mem).2.sessions =
      afind sid mem.sessions := by
  have h := sessions_frame_getSession hne now mem
  cases hG : Mem.getSession now sid' mem with
  | mk sess mem₁ =>
    rw [hG] at h
    simp [Mem.getConversationContext, hG, h]

theorem sessions_frame_handleGetContext {sid sid' : String} (hne : sid ≠ sid')
    (now : Nat) (args : ToolArgs) (mem : Mem.MemoryState) :
    afind sid (Mem.handleGetContext now sid' args mem).1.sessions =
      afind sid mem.sessions := by
  have h1 := sessions_frame_getConversationContext hne now mem
  cases hG : Mem.getConversationContext now sid' mem with
  | mk ctx mem₁ =>
    rw [hG] at h1
    by_cases hc : (jsTruthyStr args.operation && args.params.isSome) = true
    · have h2 := sessions_frame_getContextualSuggestions hne now
        (args.operation.getD "") (args.params.getD {}) mem₁
      cases hG2 : Mem.getContextualSuggestions now sid'
          (args.operation.getD "") (args.params.getD {}) mem₁ with
      | mk sug mem₂ =>
        rw [hG2] at h2
        simp [Mem.handleGetContext, hG, hc, hG2, h1, h2]
    · simp [Mem.handleGetContext, hG, hc, h1]

theorem sessions_frame_enhance {sid sid' : String} (hne : sid ≠ sid')
    (now : Nat) (op : String) (params : ToolArgs) (result : MResult)
    (mem : Mem.MemoryState) :
    afind sid (Mem.enhanceResultWithContext now sid' op params result mem).1.sessions =
      afind sid mem.sessions := by
  have h := sessions_frame_getContextualSuggestions hne now op params.crud mem
  cases hG : Mem.getContextualSuggestions now sid' op params.crud mem with
  | mk sug mem₁ =>
    rw [hG] at h
    rcases result with ⟨content⟩
    cases content <;>
      by_cases hz : (sug.length == 0) = true <;>
        simp [Mem.enhanceResultWithContext, hG, hz, h]

theorem sessions_frame_executeConfirmation {sid : String}
    (hne : sid ≠ "default") (now : Nat) (k? : Option OpKey)
    (p? : Option PendingEntry) (b : Bool) (s : Mem.SrvState) :
    afind sid ((Mem.executeConfirmation now k? p? b s).1.memory.sessions) =
      afind sid s.memory.sessions := by
  simp only [Mem.executeConfirmation]
  cases p? with
  | none => simp
  | some p =>
    cases b with
    | false => simp
    | true =>
      simp only [Bool.not_true]
      cases hE : Mem.executeOperation p.name p.args s.store with
      | mk st r =>
        cases r with
        | error e => simp [hE]
        | ok res =>
          rcases res with ⟨content⟩
          cases content <;> simp [hE, sessions_frame_addInteraction hne]

theorem sessions_frame_handleConfirmation {sid : String}
    (hne : sid ≠ "default") (now : Nat) (args : ToolArgs) (s : Mem.SrvState) :
    afind sid ((Mem.handleConfirmation now args s).1.memory.sessions) =
      afind sid s.memory.sessions := by
  by_cases hc : (jsTruthyStr args.response && args.operationId.isNone) = true
  · cases hL : afind OpKey.lastOp s.pending with
    | none => simp [Mem.handleConfirmation, hc, hL]
    | some lastOp =>
      cases hCl : Mem.classifyResponse (args.response.getD "") with
      | none => simp [Mem.handleConfirmation, hc, hL, hCl]
      | some b =>
        simp [Mem.handleConfirmation, hc, hL, hCl,
          sessions_frame_executeConfirmation hne]
  · cases hO : args.operationId with
    | some k =>
      cases hK : afind k s.pending with
      | none => simp [Mem.handleConfirmation, hc, hO, hK]
      | some p =>
        simp [Mem.handleConfirmation, hc, hO, hK,
          sessions_frame_executeConfirmation hne]
    | none =>
      have hresp : jsTruthyStr args.response = false := by
        cases hb : jsTruthyStr args.response with
        | false => rfl
        | true => exact absurd (by simp [hb, hO]) hc
      cases hC : args.confirm with
      | none => simp [Mem.handleConfirmation, hresp, hO, hC]
      | some b =>
        cases hL : afind OpKey.lastOp s.pending with
        | none => simp [Mem.handleConfirmation, hresp, hO, hC, hL]
        | some lastOp =>
          simp [Mem.handleConfirmation, hresp, hO, hC, hL,
            sessions_frame_executeConfirmation hne]

theorem sessions_frame_handleToolCallTry {sid : String}
    (hne : sid ≠ "default") (now : Nat) (req : Request) (s : Mem.SrvState) :
    afind sid ((Mem.handleToolCallTry now req s).1.memory.sessions) =
      afind sid s.memory.sessions := by
  obtain ⟨name, args⟩ := req
  by_cases h1 : (name == "get_context") = true
  · have h := sessions_frame_handleGetContext hne now args s.memory
    cases hG : Mem.handleGetContext now "default" args s.memory with
    | mk mem r =>
      rw [hG] at h
      simp [Mem.handleToolCallTry, Mem.getSessionId, h1, hG, h]
  · by_cases h2 : (name == "confirm_operation") = true
    · have h := sessions_frame_handleConfirmation hne now args s
      cases hH : Mem.handleConfirmation now args s with
      | mk s₁ r =>
        rw [hH] at h
        cases r with
        | ok v =>
          simp [Mem.handleToolCallTry, Mem.getSessionId, h1, h2, hH,
            sessions_frame_addInteraction hne, h]
        | error e =>
          simp [Mem.handleToolCallTry, Mem.getSessionId, h1, h2, hH, h]
    · by_cases h3 : Mem.isReadOperation name = true
      · cases hE : Mem.executeOperation name args s.store with
        | mk st r =>
          cases r with
          | ok v =>
            have hover := sessions_frame_enhance hne now name args v
              (Mem.addInteraction now "default" name args (.ok v) s.memory)
            cases hEn : Mem.enhanceResultWithContext now "default" name args v
                (Mem.addInteraction now "default" name args (.ok v) s.memory) with
            | mk mem r₂ =>
              rw [hEn] at hover
              simp [Mem.handleToolCallTry, Mem.getSessionId, h1, h2, h3, hE, hEn,
                hover, sessions_frame_addInteraction hne]
          | error e =>
            simp [Mem.handleToolCallTry, Mem.getSessionId, h1, h2, h3, hE]
      · simp [Mem.handleToolCallTry, Mem.getSessionId, h1, h2, h3,
          Mem.requestConfirmation]

/-- C10: the session id is the constant `"default"` for every request, and
handling any tool request leaves the memory of every other session key
untouched — all callers share the single global session. -/
theorem c10_single_global_session :
    (∀ req : Request, Mem.getSessionId req = "default") ∧
    (∀ (now : Nat) (req : Request) (s : Mem.SrvState) (sid : String),
      sid ≠ "default" →
      afind sid ((Mem.handleToolCall now req s).1.memory.sessions) =
        afind sid s.memory.sessions) := by
  refine ⟨fun _ => rfl, ?_⟩
  intro now req s sid hne
  have htry := sessions_frame_handleToolCallTry hne now req s
  cases hT : Mem.handleToolCallTry now req s with
  | mk s₁ r =>
    rw [hT] at htry
    cases r with
    | ok v => simp [Mem.handleToolCall, Mem.getSessionId, hT, htry]
    | error e =>
      cases e <;>
        simp [Mem.handleToolCall, Mem.getSessionId, hT, htry,
          sessions_frame_addInteraction hne]

/-- Witness for C10: some other session key is untouched by a concrete
request. -/
theorem c10_witness :
    Mem.getSessionId ⟨"get_lists", {}⟩ = "default" ∧
    afind "client42" ((Mem.handleToolCall 3 ⟨"get_lists", {}⟩ emptyState).1.memory.sessions) =
      afind "client42" emptyState.memory.sessions :=
  ⟨c10_single_global_session.1 ⟨"get_lists", {}⟩,
   c10_single_global_session.2 3 ⟨"get_lists", {}⟩ emptyState "client42" (by decide)⟩

/-- The pending map after `executeConfirmation` with a present key: the
entry is erased no matter how the confirmation proceeds. -/
theorem pending_executeConfirmation (now : Nat) (k : OpKey)
    (p? : Option PendingEntry) (b : Bool) (s : Mem.SrvState) :
    (Mem.executeConfirmation now (some k) p? b s).1.pending =
      aerase k s.pending := by
  simp only [Mem.executeConfirmation]
  cases p? with
  | none => simp
  | some p =>
    cases b with
    | false => simp
    | true =>
      simp only [Bool.not_true]
      cases hE : Mem.executeOperation p.name p.args s.store with
      | mk st r =>
        cases r with
        | error e => simp [hE]
        | ok res =>
          rcases res with ⟨content⟩
          cases content <;> simp [hE]

/-- C1 (amended): affirming a valid pending id executes the stored
operation exactly once and removes the entry; afterwards a second
confirmation attempt never re-executes and never silently no-ops — by
explicit id it fails with `InvalidRequest` (not found), while through the
stale alias (bare boolean or free text) it fails with an `InternalError`
(the `TypeError` on the missing entry, wrapped by the request handler). -/
theorem c1_confirmation_executes_at_most_once (now : Nat) (s : Mem.SrvState)
    (c t : Nat) (la p : PendingEntry) (r : String) (rb b : Bool)
    (_hla : afind .lastOp s.pending = some la)
    (hid : la.id? = some (c, t))
    (hp : afind (.opId c t) s.pending = some p)
    (hr : Mem.classifyResponse r = some rb)
    (hrne : r ≠ "") :
    ((Mem.handleConfirmation now
        { operationId := some (.opId c t), confirm := some true } s).1.store =
      (Mem.executeOperation p.name p.args s.store).1 ∧
     afind (.opId c t)
       (Mem.handleConfirmation now
         { operationId := some (.opId c t), confirm := some true } s).1.pending =
       none) ∧
    (∀ s₁ : Mem.SrvState, afind (.opId c t) s₁.pending = none →
      ((Mem.handleToolCall now ⟨"confirm_operation",
          { operationId := some (.opId c t), confirm := some b }⟩ s₁).2 =
        .error (.invalidRequest
          ("No pending operation found with ID: " ++ opIdString c t)) ∧
       (Mem.handleToolCall now ⟨"confirm_operation",
          { operationId := some (.opId c t), confirm := some b }⟩ s₁).1.store =
        s₁.store) ∧
      (afind .lastOp s₁.pending = some la →
        (Mem.handleToolCall now ⟨"confirm_operation", { confirm := some b }⟩ s₁).2 =
          .error (.internalError
            "Error executing confirm_operation: Cannot read properties of undefined") ∧
        (Mem.handleToolCall now ⟨"confirm_operation", { confirm := some b }⟩ s₁).1.store =
          s₁.store) ∧
      (afind .lastOp s₁.pending = some la →
        (Mem.handleToolCall now ⟨"confirm_operation", { response := some r }⟩ s₁).2 =
          .error (.internalError
            "Error executing confirm_operation: Cannot read properties of undefined") ∧
        (Mem.handleToolCall now ⟨"confirm_operation", { response := some r }⟩ s₁).1.store =
          s₁.store)) := by
  have hbeq : (r == "") = false := beq_eq_false_iff_ne.mpr hrne
  constructor
  · have hh : Mem.handleConfirmation now
        { operationId := some (.opId c t), confirm := some true } s =
        Mem.executeConfirmation now (some (.opId c t)) (some p) true s := by
      simp [Mem.handleConfirmation, jsTruthyStr, hp, jsTruthyBool]
    rw [hh]
    exact ⟨store_executeConfirmation_true .., by
      rw [pending_executeConfirmation]; exact afind_aerase_self _ _⟩
  · intro s₁ hnone
    refine ⟨?_, ?_, ?_⟩
    · have hh : Mem.handleConfirmation now
          { operationId := some (.opId c t), confirm := some b } s₁ =
          (s₁, .error (.mcp (.invalidRequest
            ("No pending operation found with ID: " ++ opIdString c t)))) := by
        simp [Mem.handleConfirmation, jsTruthyStr, hnone, Mem.opKeyString]
      constructor <;>
        simp [Mem.handleToolCall, Mem.handleToolCallTry, Mem.getSessionId, hh]
    · intro hla1
      have hh : Mem.handleConfirmation now { confirm := some b } s₁ =
          ({ s₁ with pending := aerase (.opId c t) s₁.pending },
           .error (.typeErr "Cannot read properties of undefined")) := by
        simp [Mem.handleConfirmation, jsTruthyStr, hla1, Mem.aliasTarget, hid,
          hnone, Mem.executeConfirmation]
      constructor <;>
        simp [Mem.handleToolCall, Mem.handleToolCallTry, Mem.getSessionId, hh]
    · intro hla1
      have hh : Mem.handleConfirmation now { response := some r } s₁ =
          ({ s₁ with pending := aerase (.opId c t) s₁.pending },
           .error (.typeErr "Cannot read properties of undefined")) := by
        simp [Mem.handleConfirmation, jsTruthyStr, hbeq, hla1, Mem.aliasTarget,
          hid, hnone, hr, Mem.executeConfirmation]
      constructor <;>
        simp [Mem.handleToolCall, Mem.handleToolCallTry, Mem.getSessionId, hh]

/-- Witness for C1 on the concrete pending `create_list` write. -/
theorem c1_witness :
    ((Mem.handleConfirmation 6
        { operationId := some (.opId 1 5), confirm := some true } wState).1.store =
      (Mem.executeOperation wEntry.name wEntry.args wState.store).1 ∧
     afind (.opId 1 5)
       (Mem.handleConfirmation 6
         { operationId := some (.opId 1 5), confirm := some true } wState).1.pending =
       none) ∧
    (∀ s₁ : Mem.SrvState, afind (.opId 1 5) s₁.pending = none →
      ((Mem.handleToolCall 6 ⟨"confirm_operation",
          { operationId := some (.opId 1 5), confirm := some true }⟩ s₁).2 =
        .error (.invalidRequest
          ("No pending operation found with ID: " ++ opIdString 1 5)) ∧
       (Mem.handleToolCall 6 ⟨"confirm_operation",
          { operationId := some (.opId 1 5), confirm := some true }⟩ s₁).1.store =
        s₁.store) ∧
      (afind .lastOp s₁.pending = some wAlias →
        (Mem.handleToolCall 6 ⟨"confirm_operation", { confirm := some true }⟩ s₁).2 =
          .error (.internalError
            "Error executing confirm_operation: Cannot read properties of undefined") ∧
        (Mem.handleToolCall 6 ⟨"confirm_operation", { confirm := some true }⟩ s₁).1.store =
          s₁.store) ∧
      (afind .lastOp s₁.pending = some wAlias →
        (Mem.handleToolCall 6 ⟨"confirm_operation", { response := some "yes" }⟩ s₁).2 =
          .error (.internalError
            "Error executing confirm_operation: Cannot read properties of undefined") ∧
        (Mem.handleToolCall 6 ⟨"confirm_operation", { response := some "yes" }⟩ s₁).1.store =
          s₁.store)) :=
  c1_confirmation_executes_at_most_once 6 wState 1 5 wAlias wEntry "yes" true true
    (by decide) (by decide) (by decide) (by decide) (by decide)

def c1FirstCall : Mem.SrvState × Except McpError MResult :=
  Mem.handleToolCall 6
    ⟨"confirm_operation", { operationId := some (.opId 1 5), confirm := some true }⟩
    wState

def c1SecondCall : Mem.SrvState × Except McpError MResult :=
  Mem.handleToolCall 7 ⟨"confirm_operation", { response := some "yes" }⟩
    c1FirstCall.1

/-- Counterexample for C1 as stated: after a first confirmation executes
the pending write (one list created), a second free-text confirmation
through the stale alias fails with `InternalError`, not with the claimed
`InvalidRequest` not-found error; it still neither no-ops silently nor
re-executes (the store is unchanged). -/
theorem c1_counterexample :
    c1FirstCall.1.store.lists.length = 1 ∧
    c1SecondCall.2 =
      .error (.internalError
        "Error executing confirm_operation: Cannot read properties of undefined") ∧
    (∀ m, c1SecondCall.2 ≠ .error (.invalidRequest m)) ∧
    c1SecondCall.1.store = c1FirstCall.1.store := by
  have hval : c1SecondCall.2 =
      .error (.internalError
        "Error executing confirm_operation: Cannot read properties of undefined") := by
    decide
  refine ⟨by decide, hval, ?_, by decide⟩
  intro m h
  rw [hval] at h
  exact McpError.noConfusion (Except.error.inj h)

/-- Base-variant analogue of `pending_executeConfirmation`. -/
theorem base_pending_executeConfirmation (now : Nat) (k : OpKey)
    (p? : Option PendingEntry) (b : Bool) (s : Base.SrvState) :
    (Base.executeConfirmation now (some k) p? b s).1.pending =
      aerase k s.pending := by
  simp only [Base.executeConfirmation]
  cases p? with
  | none => simp
  | some p =>
    cases b with
    | false => simp
    | true =>
      simp only [Bool.not_true]
      cases hE : Base.executeOperation p.name p.args s.store with
      | mk st r =>
        cases r with
        | error e => simp [hE]
        | ok res =>
          rcases res with ⟨content⟩
          cases content <;> simp [hE]

/-- C3 (amended): on free-text resolution the pending entry is removed
before execution; the `last_operation` alias is also deleted in the
index.js variant but never in the part_000 variant; confirmation by an
explicit real operation id removes only that entry and leaves the alias in
place in both variants. -/
theorem c3_entry_removed_alias_lifecycle (now : Nat) (c t : Nat)
    (la : PendingEntry) (r : String) (rb : Bool)
    (hid : la.id? = some (c, t))
    (hrne : r ≠ "") :
    (∀ s : Base.SrvState, afind .lastOp s.pending = some la →
      Base.classifyResponse r = some rb →
      (Base.handleConfirmation now { response := some r } s).1.pending =
        aerase (.opId c t) (aerase .lastOp s.pending)) ∧
    (∀ s : Mem.SrvState, afind .lastOp s.pending = some la →
      Mem.classifyResponse r = some rb →
      (Mem.handleConfirmation now { response := some r } s).1.pending =
        aerase (.opId c t) s.pending ∧
      afind .lastOp
        ((Mem.handleConfirmation now { response := some r } s).1.pending) =
        afind .lastOp s.pending) ∧
    (∀ (s : Mem.SrvState) (p : PendingEntry) (b : Bool),
      afind (.opId c t) s.pending = some p →
      (Mem.handleConfirmation now
          { operationId := some (.opId c t), confirm := some b } s).1.pending =
        aerase (.opId c t) s.pending ∧
      afind .lastOp
        ((Mem.handleConfirmation now
          { operationId := some (.opId c t), confirm := some b } s).1.pending) =
        afind .lastOp s.pending) ∧
    (∀ (s : Base.SrvState) (p : PendingEntry) (b : Bool),
      afind (.opId c t) s.pending = some p →
      (Base.handleConfirmation now
          { operationId := some (.opId c t), confirm := some b } s).1.pending =
        aerase (.opId c t) s.pending ∧
      afind .lastOp
        ((Base.handleConfirmation now
          { operationId := some (.opId c t), confirm := some b } s).1.pending) =
        afind .lastOp s.pending) := by
  have hbeq : (r == "") = false := beq_eq_false_iff_ne.mpr hrne
  have hkne : OpKey.lastOp ≠ OpKey.opId c t := by simp
  refine ⟨?_, ?_, ?_, ?_⟩
  · intro s hla hcl
    simp [Base.handleConfirmation, jsTruthyStr, hbeq, hla, Base.aliasTarget,
      hid, hcl, base_pending_executeConfirmation]
  · intro s hla hcl
    have hh : (Mem.handleConfirmation now { response := some r } s).1.pending =
        aerase (.opId c t) s.pending := by
      simp [Mem.handleConfirmation, jsTruthyStr, hbeq, hla, Mem.aliasTarget,
        hid, hcl, pending_executeConfirmation]
    exact ⟨hh, by rw [hh]; exact afind_aerase_ne _ hkne⟩
  · intro s p b hp
    have hh : (Mem.handleConfirmation now
        { operationId := some (.opId c t), confirm := some b } s).1.pending =
        aerase (.opId c t) s.pending := by
      simp [Mem.handleConfirmation, jsTruthyStr, hp, pending_executeConfirmation]
    exact ⟨hh, by rw [hh]; exact afind_aerase_ne _ hkne⟩
  · intro s p b hp
    have hh : (Base.handleConfirmation now
        { operationId := some (.opId c t), confirm := some b } s).1.pending =
        aerase (.opId c t) s.pending := by
      simp [Base.handleConfirmation, jsTruthyStr, hp, base_pending_executeConfirmation]
    exact ⟨hh, by rw [hh]; exact afind_aerase_ne _ hkne⟩

/-- Witness for C3 (amended) on concrete states of both variants. -/
theorem c3_witness :
    ((Base.handleConfirmation 6 { response := some "yes" } bState).1.pending =
      aerase (.opId 1 5) (aerase .lastOp bState.pending)) ∧
    ((Mem.handleConfirmation 6 { response := some "yes" } wState).1.pending =
      aerase (.opId 1 5) wState.pending ∧
     afind .lastOp
       ((Mem.handleConfirmation 6 { response := some "yes" } wState).1.pending) =
       afind .lastOp wState.pending) ∧
    ((Mem.handleConfirmation 6
        { operationId := some (.opId 1 5), confirm := some true } wState).1.pending =
      aerase (.opId 1 5) wState.pending ∧
     afind .lastOp
       ((Mem.handleConfirmation 6
         { operationId := some (.opId 1 5), confirm := some true } wState).1.pending) =
       afind .lastOp wState.pending) ∧
    ((Base.handleConfirmation 6
        { operationId := some (.opId 1 5), confirm := some true } bState).1.pending =
      aerase (.opId 1 5) bState.pending ∧
     afind .lastOp
       ((Base.handleConfirmation 6
         { operationId := some (.opId 1 5), confirm := some true } bState).1.pending) =
       afind .lastOp bState.pending) :=
  ⟨(c3_entry_removed_alias_lifecycle 6 1 5 wAlias "yes" true (by decide) (by decide)).1
      bState (by decide) (by decide),
   (c3_entry_removed_alias_lifecycle 6 1 5 wAlias "yes" true (by decide) (by decide)).2.1
      wState (by decide) (by decide),
   (c3_entry_removed_alias_lifecycle 6 1 5 wAlias "yes" true (by decide) (by decide)).2.2.1
      wState wEntry true (by decide),
   (c3_entry_removed_alias_lifecycle 6 1 5 wAlias "yes" true (by decide) (by decide)).2.2.2
      bState wEntry true (by decide)⟩

/-- Counterexample for C3 as stated: in the part_000 variant a free-text
confirmation resolves and executes the pending write (one list created),
yet the `last_operation` alias is NOT deleted. -/
theorem c3_counterexample :
    (Mem.handleToolCall 6 ⟨"confirm_operation", { response := some "yes" }⟩
        wState).1.store.lists.length = 1 ∧
    afind .lastOp
      ((Mem.handleToolCall 6 ⟨"confirm_operation", { response := some "yes" }⟩
        wState).1.pending) = some wAlias :=
  ⟨by decide, by decide⟩

/-- C8 (amended): the expiry sweep removes every pending entry — the
`last_operation` alias included — whose timestamp is more than the
five-minute TTL old, keeps every younger entry, and afterwards an
explicit-id confirmation against a swept id fails with `InvalidRequest`
(not found or expired). -/
theorem c8_sweep_removes_expired (now : Nat)
    (m : List (OpKey × PendingEntry)) (hnd : (m.map Prod.fst).Nodup) :
    (∀ (k : OpKey) (e : PendingEntry), afind k m = some e →
      now - e.timestamp > 5 * 60 * 1000 →
      afind k (Base.cleanupExpiredOperations now m) = none) ∧
    (∀ (k : OpKey) (e : PendingEntry), afind k m = some e →
      ¬(now - e.timestamp > 5 * 60 * 1000) →
      afind k (Base.cleanupExpiredOperations now m) = some e) ∧
    (∀ (c t : Nat) (s : Base.SrvState) (b : Bool),
      s.pending = Base.cleanupExpiredOperations now m →
      afind (.opId c t) (Base.cleanupExpiredOperations now m) = none →
      (Base.handleToolCall now ⟨"confirm_operation",
          { operationId := some (.opId c t), confirm := some b }⟩ s).2 =
        .error (.invalidRequest
          ("Operation " ++ opIdString c t ++ " not found or has expired"))) := by
  refine ⟨?_, ?_, ?_⟩
  · intro k e hk hgt
    have h := afind_filter_of_nodup k
      (fun kv => !(decide (now - kv.2.timestamp > 5 * 60 * 1000))) hnd
    rw [hk] at h
    simp only [Base.cleanupExpiredOperations, h]
    simp [hgt]
  · intro k e hk hle
    have h := afind_filter_of_nodup k
      (fun kv => !(decide (now - kv.2.timestamp > 5 * 60 * 1000))) hnd
    rw [hk] at h
    simp only [Base.cleanupExpiredOperations, h]
    simp [hle]
  · intro c t s b hs hnone
    rw [← hs] at hnone
    have hh : Base.handleConfirmation now
        { operationId := some (.opId c t), confirm := some b } s =
        (s, .error (.mcp (.invalidRequest
          ("Operation " ++ opIdString c t ++ " not found or has expired")))) := by
      simp [Base.handleConfirmation, jsTruthyStr, hnone, Base.opKeyString]
    simp [Base.handleToolCall, hh]

def c8Stale : PendingEntry :=
  { name := "create_list", args := {}, timestamp := 0 }

def c8Fresh : PendingEntry :=
  { id? := some (1, 0), name := "create_list", args := {}, timestamp := 400000 }

/-- A pending map with one stale real entry and one fresh alias. -/
def c8m : List (OpKey × PendingEntry) := [(.opId 1 0, c8Stale), (.lastOp, c8Fresh)]

def c8s : Base.SrvState := { pending := Base.cleanupExpiredOperations 400000 c8m }

/-- Witness for C8 (amended) at a concrete sweep. -/
theorem c8_witness :
    afind (.opId 1 0) (Base.cleanupExpiredOperations 400000 c8m) = none ∧
    afind .lastOp (Base.cleanupExpiredOperations 400000 c8m) = some c8Fresh ∧
    (Base.handleToolCall 400000 ⟨"confirm_operation",
        { operationId := some (.opId 1 0), confirm := some true }⟩ c8s).2 =
      .error (.invalidRequest
        ("Operation " ++ opIdString 1 0 ++ " not found or has expired")) :=
  ⟨(c8_sweep_removes_expired 400000 c8m (by decide)).1 (.opId 1 0) c8Stale
      (by decide) (by decide),
   (c8_sweep_removes_expired 400000 c8m (by decide)).2.1 .lastOp c8Fresh
      (by decide) (by decide),
   (c8_sweep_removes_expired 400000 c8m (by decide)).2.2 1 0 c8s true rfl
      (by decide)⟩

def c8AliasOld : PendingEntry :=
  { id? := some (1, 0), name := "create_list", args := {}, timestamp := 0 }

/-- Counterexample for C8 as stated: the claim excludes the alias from TTL
accounting, but the sweep timestamp-checks every map entry, so a stale
alias is removed by the sweep like any real entry. -/
theorem c8_counterexample :
    afind .lastOp [((OpKey.lastOp : OpKey), c8AliasOld)] = some c8AliasOld ∧
    afind .lastOp
      (Base.cleanupExpiredOperations 1000000 [(.lastOp, c8AliasOld)]) = none :=
  ⟨by decide, by decide⟩
